import Mathlib

/-!
# Verification of the TGC-BUS-Core inventory/finance core

Shallow embedding of the FIFO batch ledger, unit normalization contract,
manufacturing execution, sale/refund cash paths and the finance read models
of the repository, together with theorems settling the frozen claims about
them.

Machine integers are modelled as `Int`/`Nat` (Python integers are unbounded);
Python `Decimal` values are modelled as `ℚ` (all decimal arithmetic in the
core is over terminating decimals and `ROUND_HALF_UP` quantization, which is
exact over `ℚ`).  Database tables are lists of rows; a SQLAlchemy session is
explicit state passing of a `World` value; raising an exception is an
`Except` error, and a rolled-back transaction returns the pre-transaction
state.
-/

deriving instance DecidableEq for Except

namespace TGC

/-- `decimal.ROUND_HALF_UP` quantization to an integer: round to the nearest
integer, ties away from zero.  Mirrors `core.api.routes.finance_api.round_half_up_cents`
(and the `Decimal.quantize(Decimal("1"), rounding=ROUND_HALF_UP)` calls across
the source). -/
def round_half_up_cents (x : ℚ) : Int :=
  if x < 0 then -(Int.floor (-x + 1 / 2)) else Int.floor (x + 1 / 2)

/-- `ROUND_HALF_UP` quantization to two decimal places (used for
`margin_percent`), exact over `ℚ`. -/
def quantize2_half_up (x : ℚ) : ℚ :=
  (round_half_up_cents (x * 100) : ℚ) / 100

/-- Integer form of `round_half_up_cents (a / b)` for a positive divisor
(`rhuDiv_eq` below proves the equivalence).  The source's `Decimal` divisions
here are exact, so the integer form is the same computation, stated so that
the kernel can evaluate it. -/
def rhuDiv (a b : Int) : Int :=
  if 0 ≤ a then (2 * a + b) / (2 * b) else -((2 * (-a) + b) / (2 * b))

theorem rhuDiv_eq (a b : Int) (hb : 0 < b) :
    rhuDiv a b = round_half_up_cents ((a : ℚ) / (b : ℚ)) := by
  have hbq : (0 : ℚ) < (b : ℚ) := by exact_mod_cast hb
  have hbne : (b : ℚ) ≠ 0 := ne_of_gt hbq
  have key : ∀ n : Int, Int.floor ((n : ℚ) / (b : ℚ) + 1 / 2) = (2 * n + b) / (2 * b) := by
    intro n
    have h2b : ((2 * b).toNat : ℤ) = 2 * b := Int.toNat_of_nonneg (by linarith)
    have hcast : (((2 * b).toNat : ℕ) : ℚ) = ((2 * b : ℤ) : ℚ) := by exact_mod_cast h2b
    have harg : (n : ℚ) / (b : ℚ) + 1 / 2 =
        ((2 * n + b : ℤ) : ℚ) / (((2 * b).toNat : ℕ) : ℚ) := by
      rw [hcast]
      push_cast
      field_simp
      ring
    rw [harg, Rat.floor_intCast_div_natCast, h2b]
  rcases le_or_lt 0 a with ha | ha
  · have hx : ¬ ((a : ℚ) / (b : ℚ) < 0) :=
      not_lt.mpr (div_nonneg (by exact_mod_cast ha) (le_of_lt hbq))
    rw [rhuDiv, if_pos ha, round_half_up_cents, if_neg hx, key a]
  · have hx : (a : ℚ) / (b : ℚ) < 0 :=
      div_neg_of_neg_of_pos (by exact_mod_cast ha) hbq
    rw [rhuDiv, if_neg (not_le.mpr ha), round_half_up_cents, if_pos hx,
      show -((a : ℚ) / (b : ℚ)) = ((-a : Int) : ℚ) / (b : ℚ) by push_cast; ring,
      key (-a)]

/-- The integer line-cost form equals the source's cost-in-human-units
formula `round_half_up(unit_cost * (qty_base / multiplier))`. -/
theorem cost_cents_eq_human_form (c q mult : Int) (hm : 0 < mult) :
    rhuDiv (c * q) mult = round_half_up_cents ((c : ℚ) * ((q : ℚ) / (mult : ℚ))) := by
  rw [rhuDiv_eq _ _ hm]
  congr 1
  push_cast
  rw [mul_div_assoc]

/-- The integer per-output form equals the source's
`round_half_up(cost_inputs / output_human_qty)` with
`output_human_qty = output_qty_base / multiplier`. -/
theorem per_output_eq_human_form (c q mult : Int) (hq : 0 < q) :
    rhuDiv (c * mult) q = round_half_up_cents ((c : ℚ) / ((q : ℚ) / (mult : ℚ))) := by
  rw [rhuDiv_eq _ _ hq]
  congr 1
  rw [div_div_eq_mul_div]
  push_cast
  ring

/-! ## Data model (`core.appdb.models`, `core.appdb.models_recipes`)

The ORM model module itself is not part of the given sources; row shapes are
taken from the fields the given source files read and write and from the
spec's §3 data model. -/

/-- One inventory item (`Item`).  `dimension`/`uom` use `""`/`none` where the
Python column is NULL. -/
structure Item where
  id : Nat
  name : String
  dimension : String
  uom : Option String
  price : ℚ
  qty_stored : Int
  deriving Repr, DecidableEq

/-- One FIFO lot (`ItemBatch`).  `created_at` is an abstract timestamp. -/
structure ItemBatch where
  id : Nat
  item_id : Nat
  qty_initial : Int
  qty_remaining : Int
  unit_cost_cents : Int
  source_kind : String
  source_id : Option String
  created_at : Nat
  deriving Repr, DecidableEq

/-- One signed inventory ledger entry (`ItemMovement`). -/
structure ItemMovement where
  item_id : Nat
  batch_id : Option Nat
  qty_change : Int
  unit_cost_cents : Int
  source_kind : String
  source_id : Option String
  created_at : Nat
  deriving Repr, DecidableEq

/-- One money-moving record (`CashEvent`). -/
structure CashEvent where
  kind : String
  category : Option String
  amount_cents : Int
  item_id : Option Nat
  qty_base : Option Int
  unit_price_cents : Option Int
  source_kind : String
  source_id : Option String
  related_source_id : Option String
  notes : Option String
  created_at : Nat
  deriving Repr, DecidableEq

/-- Structured content of `ManufacturingRun.meta` (stored as JSON by the
source; modelled structurally). -/
structure RunMeta where
  output_qty_base : Int
  cost_inputs_cents : Int
  per_output_cents : Int
  output_batch_id : Nat
  deriving Repr, DecidableEq

/-- One production attempt (`ManufacturingRun`). -/
structure ManufacturingRun where
  id : Nat
  recipe_id : Option Nat
  output_item_id : Nat
  output_qty : Int
  status : String
  notes : Option String
  executed_at : Option Nat
  meta : Option RunMeta
  deriving Repr, DecidableEq

/-- The database state: one list per table plus fresh-id counters standing in
for autoincrement primary keys. -/
structure World where
  items : List Item
  batches : List ItemBatch
  movements : List ItemMovement
  cash_events : List CashEvent
  runs : List ManufacturingRun
  next_batch_id : Nat
  next_run_id : Nat
  deriving Repr, DecidableEq

/-! ## Unit normalization (`core.metrics.metric`, `core.api.quantity_contract`)

`core.metrics.metric` is not among the given sources; its multiplier table and
helpers are modelled from the spec.  The parsing/validation pipeline below is
translated from `core.api.quantity_contract.normalize_quantity_to_base_int`,
which is among the given sources. -/

/-- Modelled from the spec: `core.metrics.metric.UNIT_MULTIPLIER`, the fixed
per-dimension table mapping unit-of-measure strings to integer "base units per
human unit" multipliers (spec §4.1: count `ea→1000`, `mc→1`; weight
`kg→1_000_000`, `g→1000`, `mg→1`). -/
def UNIT_MULTIPLIER (dim uom : String) : Option Int :=
  match dim, uom with
  | "count", "ea" => some 1000
  | "count", "mc" => some 1
  | "weight", "kg" => some 1000000
  | "weight", "g" => some 1000
  | "weight", "mg" => some 1
  | _, _ => none

/-- Character-level lowercase (Python `str.lower()`), stated so that it
evaluates inside the kernel. -/
def lowerString (s : String) : String :=
  String.mk (s.data.map Char.toLower)

/-- Whitespace stripping at both ends of a character list (Python
`str.strip()`). -/
def stripChars (cs : List Char) : List Char :=
  ((cs.dropWhile Char.isWhitespace).reverse.dropWhile Char.isWhitespace).reverse

/-- Modelled from the spec: `core.metrics.metric._norm_dimension` (dimension
strings are enum names; normalization is whitespace/case cleanup).  Character
level so that it evaluates inside the kernel. -/
def norm_dimension (s : String) : String :=
  String.mk ((stripChars s.data).map Char.toLower)

/-- Modelled from the spec: `core.metrics.metric._norm_unit`. -/
def norm_unit (s : String) : String :=
  String.mk ((stripChars s.data).map Char.toLower)

/-- Modelled from the spec: `core.metrics.metric.uom_multiplier`, the lookup
raising for unsupported units (modelled as `Option`). -/
def uom_multiplier (dim uom : String) : Option Int :=
  UNIT_MULTIPLIER (norm_dimension dim) (norm_unit uom)

/-- Modelled from the spec: `core.metrics.metric.default_unit_for`, the display
default unit of a dimension (spec §3: items carry a default unit-of-measure;
the concrete scenarios only exercise `count`/`ea`). -/
def default_unit_for (dim : String) : String :=
  match dim with
  | "count" => "ea"
  | "weight" => "g"
  | _ => ""

/-- Value of a list of decimal digit characters. -/
def digitsToNat (l : List Char) : Nat :=
  l.foldl (fun a c => a * 10 + (c.toNat - 48)) 0

/-- Split a character list at a single decimal point; `none` when more than
one dot occurs. -/
def decSplit (cs : List Char) : Option (List Char × List Char) :=
  match cs.findIdx? (fun c => c == '.') with
  | none => some (cs, [])
  | some i =>
    let ip := cs.take i
    let fp := cs.drop (i + 1)
    if fp.contains '.' then none else some (ip, fp)

/-- Parser for the plain decimal literals `[+|-]digits[.digits]` accepted by
`decimal.Decimal(...)` in the source's normalization pipeline (the pipeline's
inputs are decimal strings; exponent and special forms are not modelled).
Returns the value in `Decimal`'s own representation: a signed mantissa `m`
and a fractional-digit count `e`, denoting `m / 10^e`. -/
def parseDecimal (s : String) : Option (Int × Nat) :=
  let p : Int × List Char :=
    match s.data with
    | '+' :: r => (1, r)
    | '-' :: r => (-1, r)
    | r => (1, r)
  match decSplit p.2 with
  | none => none
  | some (ip, fp) =>
    if ip.all Char.isDigit && fp.all Char.isDigit && (!ip.isEmpty || !fp.isEmpty) then
      some (p.1 * (digitsToNat ip * 10 ^ fp.length + digitsToNat fp), fp.length)
    else
      none

/-- The rational value denoted by a parsed decimal `(mantissa, fracDigits)`. -/
def decValue (p : Int × Nat) : ℚ :=
  (p.1 : ℚ) / (10 : ℚ) ^ p.2

/-- `str(quantity_decimal or "").strip().replace(",", "")`, character level. -/
def cleanQuantityString (s : String) : String :=
  String.mk ((stripChars s.data).filter (fun c => c != ','))

/-- `if cleaned.startswith("."): cleaned = "0" + cleaned`, character level. -/
def padLeadingDot (s : String) : String :=
  match s.data with
  | '.' :: rest => String.mk ('0' :: '.' :: rest)
  | _ => s

/-- Validation errors of the quantity/cost normalization contract, keyed by
the `message` field of the raised `HTTPException` detail. -/
inductive QtyError where
  | unsupported_uom
  | invalid_quantity
  | fractional_base_quantity_not_allowed
  deriving Repr, DecidableEq

/-- `core.api.quantity_contract.normalize_quantity_to_base_int`, translated
step for step from the source (string-input path). -/
def normalize_quantity_to_base_int (dimension uom quantity_decimal : String) :
    Except QtyError Int :=
  match UNIT_MULTIPLIER (norm_dimension dimension) (norm_unit uom) with
  | none => .error .unsupported_uom
  | some multiplier =>
    if cleanQuantityString quantity_decimal == "" ||
        cleanQuantityString quantity_decimal == "." ||
        cleanQuantityString quantity_decimal == "-." ||
        cleanQuantityString quantity_decimal == "+." then
      .error .invalid_quantity
    else
      match parseDecimal (padLeadingDot (cleanQuantityString quantity_decimal)) with
      | none => .error .invalid_quantity
      | some qty_dec =>
        if ¬ ((10 : Int) ^ qty_dec.2 ∣ qty_dec.1 * multiplier) then
          .error .fractional_base_quantity_not_allowed
        else if qty_dec.1 * multiplier / (10 : Int) ^ qty_dec.2 ≤ 0 then
          .error .invalid_quantity
        else
          .ok (qty_dec.1 * multiplier / (10 : Int) ^ qty_dec.2)

/-! ## FIFO batch allocation (`core.manufacturing.service.fifo.allocate`) -/

/-- One entry of the `allocations` list built by `fifo.allocate`. -/
structure Alloc where
  item_id : Nat
  batch_id : Nat
  qty : Int
  unit_cost_cents : Int
  deriving Repr, DecidableEq

/-- The shortage dictionary carried by `InsufficientStock` (keys `item_id`,
`required`, `on_hand`, `missing` as written in `fifo.allocate`). -/
structure ShortageDetail where
  item_id : Nat
  required : Int
  on_hand : Int
  missing : Int
  deriving Repr, DecidableEq

/-- The SQL `ORDER BY created_at, id` comparison on batches. -/
def batchKeyLe (a b : ItemBatch) : Bool :=
  Nat.blt a.created_at b.created_at ||
    (a.created_at == b.created_at && Nat.ble a.id b.id)

/-- Insert into a `batchKeyLe`-sorted list, keeping it sorted. -/
def insertByKey (b : ItemBatch) : List ItemBatch → List ItemBatch
  | [] => [b]
  | c :: rest => if batchKeyLe b c then b :: c :: rest else c :: insertByKey b rest

/-- Insertion sort by `(created_at, id)` — the `ORDER BY` of the batch query. -/
def sortBatches : List ItemBatch → List ItemBatch
  | [] => []
  | b :: rest => insertByKey b (sortBatches rest)

/-- The batch query of `fifo.allocate`: all batches of the item with
`qty_remaining > 0`, ordered by `(created_at, id)` ascending. -/
def fifoQuery (db : List ItemBatch) (item_id : Nat) : List ItemBatch :=
  sortBatches (db.filter (fun b => b.item_id == item_id && decide (0 < b.qty_remaining)))

/-- The allocation loop of `fifo.allocate`: walk the ordered batches, take
`min(remaining, still-needed)` from each, decrement `qty_remaining`, stop once
satisfied.  Returns the allocations and the updated queried batches (in query
order); the `take ≤ 0` guard mirrors the `continue` in the source. -/
def fifoWalk (item_id : Nat) : List ItemBatch → Int → List Alloc × List ItemBatch
  | [], _ => ([], [])
  | b :: rest, remaining =>
    if remaining ≤ 0 then ([], b :: rest)
    else
      let take := min b.qty_remaining remaining
      if take ≤ 0 then
        let r := fifoWalk item_id rest remaining
        (r.1, b :: r.2)
      else
        let r := fifoWalk item_id rest (remaining - take)
        (⟨item_id, b.id, take, b.unit_cost_cents⟩ :: r.1,
          { b with qty_remaining := b.qty_remaining - take } :: r.2)

/-- Write the updated queried rows back into the table, keyed by primary key —
the SQLAlchemy identity-map view of the in-place `batch.qty_remaining`
mutations. -/
def mergeById (db updated : List ItemBatch) : List ItemBatch :=
  db.map (fun b => ((updated.find? (fun u => u.id == b.id)).getD b))

/-- `core.manufacturing.service.fifo.allocate`, translated from the source.
The second component is the batch table after the call: unchanged when the
quantity is non-positive or `InsufficientStock` is raised (the raise happens
before any mutation). -/
def fifo_allocate (db : List ItemBatch) (item_id : Nat) (qty : Int) :
    Except ShortageDetail (List Alloc) × List ItemBatch :=
  if qty ≤ 0 then (.ok [], db)
  else
    let batches := fifoQuery db item_id
    let available := (batches.map (fun b => b.qty_remaining)).sum
    if available < qty then
      (.error ⟨item_id, qty, available, qty - available⟩, db)
    else
      let r := fifoWalk item_id batches qty
      (.ok r.1, mergeById db r.2)

/-- The FIFO walk as the spec words it (§4.2): "walks batches oldest-first,
consuming `min(remaining, still-needed)` from each … stops once the requested
quantity is satisfied".  Stated over the already-ordered batch list; used as
the refinement target for `fifo_allocate`. -/
def specFifoAllocs (item_id : Nat) : List ItemBatch → Int → List Alloc
  | [], _ => []
  | b :: rest, needed =>
    if needed ≤ 0 then []
    else
      let take := min b.qty_remaining needed
      ⟨item_id, b.id, take, b.unit_cost_cents⟩ ::
        specFifoAllocs item_id rest (needed - take)

/-- Total quantity the allocation list takes from the batch with the given id. -/
def allocatedTo (allocs : List Alloc) (batch_id : Nat) : Int :=
  ((allocs.filter (fun a => a.batch_id == batch_id)).map (fun a => a.qty)).sum

/-- Total quantity the allocation list consumes from the given item (the
`consumed_per_item_base` dictionary of `execute_run_txn`). -/
def consumedOf (allocs : List Alloc) (item_id : Nat) : Int :=
  ((allocs.filter (fun a => a.item_id == item_id)).map (fun a => a.qty)).sum

/-! ## Ledger primitives (`core.appdb.ledger`)

`core.appdb.ledger` is not among the given sources (only its callers are);
`add_batch`, `fifo_consume` and `on_hand_qty` are modelled from spec §4.2. -/

/-- Modelled from the spec: `core.appdb.ledger.add_batch` — "appends a new
batch and a matching positive movement in one local transaction; updates the
item's cached quantity".  Returns the new world and the batch id. -/
def add_batch (w : World) (item_id : Nat) (qty : Int) (unit_cost_cents : Int)
    (source_kind : String) (source_id : Option String) (now : Nat) : World × Nat :=
  let bid := w.next_batch_id
  let b : ItemBatch :=
    ⟨bid, item_id, qty, qty, unit_cost_cents, source_kind, source_id, now⟩
  let mv : ItemMovement :=
    ⟨item_id, some bid, qty, unit_cost_cents, source_kind, source_id, now⟩
  ({ w with
      batches := w.batches ++ [b]
      movements := w.movements ++ [mv]
      items := w.items.map (fun it =>
        if it.id == item_id then { it with qty_stored := it.qty_stored + qty } else it)
      next_batch_id := bid + 1 },
    bid)

/-- Modelled from the spec: `core.appdb.ledger.on_hand_qty` — "sum of
`qty_remaining` across all batches for the item". -/
def on_hand_qty (db : List ItemBatch) (item_id : Nat) : Int :=
  ((db.filter (fun b => b.item_id == item_id)).map (fun b => b.qty_remaining)).sum

/-- Modelled from the spec: `core.appdb.ledger.fifo_consume` (§4.2
`consume_fifo`) — the FIFO allocation of `fifo_allocate` plus "one negative
movement per batch touched, each carrying that batch's original
`unit_cost_cents`"; fail-fast with no writes on `InsufficientStock`. -/
def fifo_consume (w : World) (item_id : Nat) (qty : Int) (source_kind : String)
    (source_id : Option String) (now : Nat) :
    Except ShortageDetail (World × List ItemMovement) :=
  match fifo_allocate w.batches item_id qty with
  | (.error s, _) => .error s
  | (.ok allocs, batches1) =>
    let moves := allocs.map (fun a =>
      { item_id := a.item_id, batch_id := some a.batch_id, qty_change := -a.qty,
        unit_cost_cents := a.unit_cost_cents, source_kind := source_kind,
        source_id := source_id, created_at := now : ItemMovement })
    .ok ({ w with batches := batches1, movements := w.movements ++ moves }, moves)

/-- The unit-of-work primitive: run the body against the current state, commit
its state on success, roll every write back (returning the entry state) when
it raises — the semantics of the `with tx:` blocks and of the `@transactional`
wrapper in the source. -/
def withTransaction {E A : Type} (w : World) (body : World → Except E (World × A)) :
    Except E A × World :=
  match body w with
  | .ok (w1, a) => (.ok a, w1)
  | .error e => (.error e, w)

/-! ## Stock-out / sale path (`core.services.stock_mutation.perform_stock_out_base`) -/

/-- The `meta` dictionary of `perform_stock_out_base`; `reason = ""` stands
for a missing/falsy `reason` key (Python defaults it to `"sold"`). -/
structure StockOutMeta where
  reason : String
  record_cash_event : Bool
  sell_unit_price_cents : Option Int
  note : Option String
  deriving Repr, DecidableEq

inductive StockOutError where
  | qty_base_must_be_positive_int
  | item_not_found
  | sold_cash_event_count_only
  | insufficient (s : ShortageDetail)
  | injected
  deriving Repr, DecidableEq

/-- `ref or uuid4().hex` / `"" or fresh`: Python truthiness on the optional
correlation string. -/
def orFresh (ref : Option String) (fresh : String) : String :=
  match ref with
  | some r => if r == "" then fresh else r
  | none => fresh

/-- The unit-price snapshot of the sale branch: the caller-provided
`sell_unit_price_cents` or the item's price converted to cents, rounded
half-up. -/
def salePriceCents (meta : StockOutMeta) (it : Item) : Int :=
  match meta.sell_unit_price_cents with
  | some c => c
  | none => round_half_up_cents (it.price * 100)

/-- The transaction body of the sale branch of `perform_stock_out_base`: FIFO
consumption plus the `CashEvent(kind="sale")` insert, sharing one transaction. -/
def saleTxnBody (item_id : Nat) (qty_base : Int) (reason : String)
    (source_id : String) (amount_cents unit_price_cents : Int) (note : Option String)
    (now : Nat) (w : World) : Except StockOutError (World × List ItemMovement) :=
  match fifo_consume w item_id qty_base reason (some source_id) now with
  | .error s => .error (.insufficient s)
  | .ok (w1, moves) =>
    let ce : CashEvent :=
      { kind := "sale", category := none, amount_cents := amount_cents,
        item_id := some item_id, qty_base := some qty_base,
        unit_price_cents := some unit_price_cents, source_kind := "sold",
        source_id := some source_id, related_source_id := none,
        notes := note, created_at := now }
    .ok ({ w1 with cash_events := w1.cash_events ++ [ce] }, moves)

/-- `core.services.stock_mutation.perform_stock_out_base`, translated from the
source.  `fresh` stands for the generated `uuid4().hex`. -/
def perform_stock_out_base (w : World) (item_id : Nat) (qty_base : Int)
    (ref : Option String) (meta : StockOutMeta) (fresh : String) (now : Nat) :
    Except StockOutError (List ItemMovement) × World :=
  if qty_base ≤ 0 then (.error .qty_base_must_be_positive_int, w)
  else
    let reason := if meta.reason == "" then "sold" else meta.reason
    if reason == "sold" && meta.record_cash_event then
      match w.items.find? (fun it => it.id == item_id) with
      | none => (.error .item_not_found, w)
      | some it =>
        if lowerString it.dimension != "count" then
          (.error .sold_cash_event_count_only, w)
        else
          withTransaction w
            (saleTxnBody item_id qty_base reason (orFresh ref fresh)
              (rhuDiv (salePriceCents meta it * qty_base) 1000)
              (salePriceCents meta it) meta.note now)
    else
      match fifo_consume w item_id qty_base reason ref now with
      | .error s => (.error (.insufficient s), w)
      | .ok (w1, moves) => (.ok moves, w1)

/-- The spec §8 atomicity probe: `perform_stock_out_base` with an exception
forced between the FIFO consumption and the cash-event insert.  The injected
failure happens inside the shared transaction, so the transaction rolls back. -/
def perform_stock_out_base_failing (w : World) (item_id : Nat) (qty_base : Int)
    (ref : Option String) (meta : StockOutMeta) (fresh : String) (now : Nat) :
    Except StockOutError (List ItemMovement) × World :=
  if qty_base ≤ 0 then (.error .qty_base_must_be_positive_int, w)
  else
    let reason := if meta.reason == "" then "sold" else meta.reason
    if reason == "sold" && meta.record_cash_event then
      match w.items.find? (fun it => it.id == item_id) with
      | none => (.error .item_not_found, w)
      | some it =>
        if lowerString it.dimension != "count" then
          (.error .sold_cash_event_count_only, w)
        else
          withTransaction w (fun w0 =>
            match fifo_consume w0 item_id qty_base reason (some (orFresh ref fresh)) now with
            | .error s => .error (.insufficient s)
            | .ok _ => .error .injected)
    else
      match fifo_consume w item_id qty_base reason ref now with
      | .error s => (.error (.insufficient s), w)
      | .ok (w1, moves) => (.ok moves, w1)

/-! ## Refund path (`core.api.routes.finance_api.finance_refund`) -/

/-- Python truthiness on an optional string (`body.related_source_id or None`):
the empty string counts as absent. -/
def truthy (s : Option String) : Option String :=
  match s with
  | some r => if r == "" then none else some r
  | none => none

/-- Request body of `POST /finance/refund` (`RefundIn`); pydantic already
enforces `refund_amount_cents > 0` at the boundary. -/
structure RefundIn where
  item_id : Nat
  refund_amount_cents : Int
  quantity_decimal : String
  uom : String
  restock_inventory : Bool
  related_source_id : Option String
  restock_unit_cost_cents : Option Int
  category : Option String
  notes : Option String
  created_at : Option Nat
  deriving Repr, DecidableEq

inductive RefundError where
  | restock_unit_cost_required_without_related_source_id
  | item_not_found
  | qty (e : QtyError)
  | quantity_must_be_positive
  | related_source_id_not_found_for_item
  | related_source_id_has_zero_qty
  deriving Repr, DecidableEq

/-- The negative movements recorded under the original sale's correlation id
for this item — the `rows` query of the refund restock branch. -/
def refundRelatedRows (movements : List ItemMovement) (item_id : Nat) (rsid : String) :
    List ItemMovement :=
  movements.filter (fun m =>
    m.item_id == item_id && m.source_id == some rsid && decide (m.qty_change < 0))

/-- The quantity-weighted average unit cost over the related rows, rounded
half-up (`(total_cost / total_qty).quantize(1, ROUND_HALF_UP)`, which is
exact; integer form). -/
def weightedAvgUnitCost (rows : List ItemMovement) : Int :=
  rhuDiv ((rows.map (fun m => |m.qty_change| * m.unit_cost_cents)).sum)
    ((rows.map (fun m => |m.qty_change|)).sum)

/-- The transaction body of `finance_refund`: refund `CashEvent` insert plus
the optional restock (`perform_stock_in_base` → `add_batch`). -/
def refundTxnBody (body : RefundIn) (fresh : String) (now : Nat) (w0 : World) :
    Except RefundError (World × String) :=
  match w0.items.find? (fun it => it.id == body.item_id) with
  | none => .error .item_not_found
  | some item =>
    match normalize_quantity_to_base_int item.dimension body.uom body.quantity_decimal with
    | .error e => .error (.qty e)
    | .ok qty_base =>
      if qty_base ≤ 0 then .error .quantity_must_be_positive
      else
        let ce : CashEvent :=
          { kind := "refund", category := body.category,
            amount_cents := -(|body.refund_amount_cents|),
            item_id := some body.item_id, qty_base := some qty_base,
            unit_price_cents := none, source_kind := "refund",
            source_id := some fresh,
            related_source_id := truthy body.related_source_id,
            notes := body.notes, created_at := body.created_at.getD now }
        let w1 := { w0 with cash_events := w0.cash_events ++ [ce] }
        if body.restock_inventory then
          match truthy body.related_source_id with
          | some rsid =>
            let rows := refundRelatedRows w1.movements body.item_id rsid
            if rows.isEmpty then .error .related_source_id_not_found_for_item
            else if (rows.map (fun m => (|m.qty_change| : Int))).sum == 0 then
              .error .related_source_id_has_zero_qty
            else
              .ok ((add_batch w1 body.item_id qty_base (weightedAvgUnitCost rows)
                  "refund_restock" (some fresh) now).1, fresh)
          | none =>
            .ok ((add_batch w1 body.item_id qty_base (body.restock_unit_cost_cents.getD 0)
                "refund_restock" (some fresh) now).1, fresh)
        else
          .ok (w1, fresh)

/-- `core.api.routes.finance_api.finance_refund`, translated from the source;
`fresh` stands for the generated `uuid4().hex` correlation id.  The explicit
restock-cost requirement is checked before the transaction opens. -/
def finance_refund (w : World) (body : RefundIn) (fresh : String) (now : Nat) :
    Except RefundError String × World :=
  if body.restock_inventory && (truthy body.related_source_id).isNone
      && body.restock_unit_cost_cents.isNone then
    (.error .restock_unit_cost_required_without_related_source_id, w)
  else
    withTransaction w (refundTxnBody body fresh now)

/-! ## Manufacturing execution (`core.manufacturing.service.execute_run_txn`) -/

/-- One entry of the `required_components` list produced by `validate_run`. -/
structure RequiredComponent where
  item_id : Nat
  required_base : Int
  is_optional : Bool
  deriving Repr, DecidableEq

inductive ExecError where
  | insufficient (s : ShortageDetail)
  | item_not_found (id : Nat)
  | invalid_uom
  | invalid_output_qty
  deriving Repr, DecidableEq

/-- `core.manufacturing.service._basis_uom_for_item`: the item's own unit when
it is valid for its dimension, otherwise the dimension's default unit. -/
def _basis_uom_for_item (it : Item) : String :=
  let dimension := if it.dimension == "" then "count" else it.dimension
  match it.uom with
  | some u =>
    match uom_multiplier dimension u with
    | some _ => u
    | none => default_unit_for dimension
  | none => default_unit_for dimension

/-- `core.manufacturing.service._human_qty_from_base`: base quantity divided
by the unit multiplier; `none` models the raised errors for an unknown unit or
non-positive multiplier. -/
def _human_qty_from_base (qty_base : Int) (dimension basis_uom : String) : Option ℚ :=
  match uom_multiplier dimension basis_uom with
  | none => none
  | some mult => if mult ≤ 0 then none else some ((qty_base : ℚ) / (mult : ℚ))

/-- `core.manufacturing.service._cost_cents_for_base_qty`: the batch's unit
cost times the consumed quantity converted to the item's human units
(`qty_base / multiplier`), rounded half-up to cents — integer form
`rhuDiv (unit_cost_cents * qty_base) multiplier` of the same exact-decimal
computation (see `cost_cents_eq_human_form`). -/
def _cost_cents_for_base_qty (unit_cost_cents : Int) (qty_base : Int) (it : Item) :
    Option Int :=
  let dimension := if it.dimension == "" then "count" else it.dimension
  match uom_multiplier dimension (_basis_uom_for_item it) with
  | none => none
  | some mult =>
    if mult ≤ 0 then none
    else some (rhuDiv (unit_cost_cents * qty_base) mult)

/-- The component-consumption loop of `execute_run_txn`: skip non-positive
requirements and short optional components, FIFO-allocate the rest in list
order against the evolving batch table. -/
def allocLoop : List RequiredComponent → List ItemBatch →
    Except ShortageDetail (List Alloc × List ItemBatch)
  | [], db => .ok ([], db)
  | r :: rest, db =>
    if r.required_base ≤ 0 then allocLoop rest db
    else if r.is_optional && decide (on_hand_qty db r.item_id < r.required_base) then
      allocLoop rest db
    else
      match fifo_allocate db r.item_id r.required_base with
      | (.error s, _) => .error s
      | (.ok allocs, db1) =>
        match allocLoop rest db1 with
        | .error s => .error s
        | .ok (rest_allocs, dbf) => .ok (allocs ++ rest_allocs, dbf)

/-- The `cost_inputs_cents` accumulation loop of `execute_run_txn`, with the
item lookup per allocation (`item_not_found` on a missing item). -/
def costOfAllocs (items : List Item) : List Alloc → Except ExecError Int
  | [] => .ok 0
  | a :: rest =>
    match items.find? (fun it => it.id == a.item_id) with
    | none => .error (.item_not_found a.item_id)
    | some it =>
      match _cost_cents_for_base_qty a.unit_cost_cents a.qty it with
      | none => .error .invalid_uom
      | some c =>
        match costOfAllocs items rest with
        | .error e => .error e
        | .ok s => .ok (c + s)

/-- Result of a successful `execute_run_txn` (the run row, its audit meta and
the committed world). -/
structure ExecResult where
  world : World
  run_id : Nat
  allocations : List Alloc
  cost_inputs_cents : Int
  per_output_cents : Int
  output_batch_id : Nat
  deriving Repr, DecidableEq

/-- `core.manufacturing.service.execute_run_txn`, translated from the source.
The `@transactional` wrapper commits the returned world on success and rolls
everything back on any raised error, so an `Except.error` leaves the caller's
world untouched. -/
def execute_run_txn (w : World) (recipe_id : Option Nat) (notes : Option String)
    (output_item_id : Nat) (required_components : List RequiredComponent)
    (output_qty_base : Int) (now : Nat) : Except ExecError ExecResult :=
  let run_id := w.next_run_id
  match allocLoop required_components w.batches with
  | .error s => .error (.insufficient s)
  | .ok (allocations, batches1) =>
    let consumption_moves := allocations.map (fun a =>
      { item_id := a.item_id, batch_id := some a.batch_id, qty_change := -a.qty,
        unit_cost_cents := a.unit_cost_cents, source_kind := "manufacturing",
        source_id := some (toString run_id), created_at := now : ItemMovement })
    match costOfAllocs w.items allocations with
    | .error e => .error e
    | .ok cost_inputs_cents =>
      match w.items.find? (fun it => it.id == output_item_id) with
      | none => .error (.item_not_found output_item_id)
      | some output_item =>
        let dimension := if output_item.dimension == "" then "count" else output_item.dimension
        match uom_multiplier dimension (_basis_uom_for_item output_item) with
        | none => .error .invalid_uom
        | some out_mult =>
          if out_mult ≤ 0 then .error .invalid_uom
          else if output_qty_base ≤ 0 then
            -- `output_human_qty = output_qty_base / out_mult ≤ 0` iff the base
            -- quantity is non-positive, since the multiplier is positive
            .error .invalid_output_qty
          else
            let per_output_cents := rhuDiv (cost_inputs_cents * out_mult) output_qty_base
            let output_batch : ItemBatch :=
              { id := w.next_batch_id, item_id := output_item_id,
                qty_initial := output_qty_base, qty_remaining := output_qty_base,
                unit_cost_cents := per_output_cents, source_kind := "manufacturing",
                source_id := some (toString run_id), created_at := now }
            let output_move : ItemMovement :=
              { item_id := output_item_id, batch_id := some output_batch.id,
                qty_change := output_qty_base, unit_cost_cents := per_output_cents,
                source_kind := "manufacturing", source_id := some (toString run_id),
                created_at := now }
            let items1 := w.items.map (fun it =>
              if consumedOf allocations it.id != 0 then
                { it with qty_stored := it.qty_stored - consumedOf allocations it.id }
              else it)
            let items2 := items1.map (fun it =>
              if it.id == output_item_id then
                { it with qty_stored := it.qty_stored + output_qty_base }
              else it)
            let run : ManufacturingRun :=
              { id := run_id, recipe_id := recipe_id,
                output_item_id := output_item_id, output_qty := output_qty_base,
                status := "completed", notes := notes, executed_at := some now,
                meta := some ⟨output_qty_base, cost_inputs_cents, per_output_cents,
                  output_batch.id⟩ }
            .ok { world :=
                    { items := items2, batches := batches1 ++ [output_batch],
                      movements := w.movements ++ consumption_moves ++ [output_move],
                      cash_events := w.cash_events, runs := w.runs ++ [run],
                      next_batch_id := w.next_batch_id + 1, next_run_id := run_id + 1 },
                  run_id := run_id, allocations := allocations,
                  cost_inputs_cents := cost_inputs_cents,
                  per_output_cents := per_output_cents,
                  output_batch_id := output_batch.id }

/-! ## Finance read model (`core.api.read_models.get_finance_summary`) -/

/-- `CashEvent.kind == "sale"` within the half-open window `[fromDt, toDt)`. -/
def saleInWindow (e : CashEvent) (fromDt toDt : Nat) : Bool :=
  e.kind == "sale" && Nat.ble fromDt e.created_at && Nat.blt e.created_at toDt

/-- `CashEvent.kind == "refund"` within the half-open window. -/
def refundInWindow (e : CashEvent) (fromDt toDt : Nat) : Bool :=
  e.kind == "refund" && Nat.ble fromDt e.created_at && Nat.blt e.created_at toDt

/-- SQL equality on the nullable `source_id` columns of the COGS join: a NULL
on either side never matches. -/
def sidMatch (m : ItemMovement) (e : CashEvent) : Bool :=
  match m.source_id, e.source_id with
  | some a, some b => a == b
  | _, _ => false

/-- The `gross` aggregate: sum of sale `amount_cents` in the window. -/
def summaryGross (w : World) (fromDt toDt : Nat) : Int :=
  ((w.cash_events.filter (fun e => saleInWindow e fromDt toDt)).map
    (fun e => e.amount_cents)).sum

/-- The `refunds_raw` aggregate: signed sum of refund `amount_cents` in the
window. -/
def summaryRefundsRaw (w : World) (fromDt toDt : Nat) : Int :=
  ((w.cash_events.filter (fun e => refundInWindow e fromDt toDt)).map
    (fun e => e.amount_cents)).sum

/-- The COGS aggregate of `get_finance_summary`: the SQL inner join of
negative movements against in-window sale events on `source_id`, summing
`abs(qty_change) * unit_cost_cents` over the joined pairs (one term per
matching movement/sale pair). -/
def summaryCogs (w : World) (fromDt toDt : Nat) : Int :=
  (w.movements.map (fun m =>
    if m.qty_change < 0 then
      ((w.cash_events.filter (fun e => saleInWindow e fromDt toDt && sidMatch m e)).map
        (fun _ => |m.qty_change| * m.unit_cost_cents)).sum
    else 0)).sum

/-- The frozen `FinanceSummary` dataclass.  `margin_percent` is modelled as the
exact two-decimal rational the source quantizes to (the final `float(...)`
conversion is representation only). -/
structure FinanceSummary where
  gross_revenue_cents : Int
  refunds_cents : Int
  net_revenue_cents : Int
  cogs_cents : Int
  gross_profit_cents : Int
  margin_percent : ℚ
  deriving Repr, DecidableEq

/-- `core.api.read_models.get_finance_summary`, translated from the source. -/
def get_finance_summary (w : World) (fromDt toDt : Nat) : FinanceSummary :=
  let gross_revenue_cents := summaryGross w fromDt toDt
  let refunds_cents := |summaryRefundsRaw w fromDt toDt|
  let cogs_cents := summaryCogs w fromDt toDt
  let net_revenue_cents := gross_revenue_cents - refunds_cents
  let gross_profit_cents := net_revenue_cents - cogs_cents
  { gross_revenue_cents := gross_revenue_cents
    refunds_cents := refunds_cents
    net_revenue_cents := net_revenue_cents
    cogs_cents := cogs_cents
    gross_profit_cents := gross_profit_cents
    margin_percent :=
      if net_revenue_cents = 0 then 0
      else quantize2_half_up
        ((gross_profit_cents : ℚ) / (net_revenue_cents : ℚ) * 100) }

/-! ## Supporting lemmas: the sorted batch query -/

theorem insertByKey_perm (b : ItemBatch) (l : List ItemBatch) :
    List.Perm (insertByKey b l) (b :: l) := by
  induction l with
  | nil => simp [insertByKey]
  | cons c rest ih =>
    by_cases h : batchKeyLe b c = true
    · simp [insertByKey, h]
    · simp only [insertByKey, h, if_false, Bool.false_eq_true]
      exact (ih.cons c).trans (List.Perm.swap b c rest)

theorem sortBatches_perm (l : List ItemBatch) : List.Perm (sortBatches l) l := by
  induction l with
  | nil => simp [sortBatches]
  | cons b rest ih =>
    exact (insertByKey_perm b (sortBatches rest)).trans (ih.cons b)

theorem mem_sortBatches {b : ItemBatch} {l : List ItemBatch} :
    b ∈ sortBatches l ↔ b ∈ l :=
  (sortBatches_perm l).mem_iff

theorem mem_fifoQuery {db : List ItemBatch} {item_id : Nat} {b : ItemBatch} :
    b ∈ fifoQuery db item_id ↔
      b ∈ db ∧ b.item_id = item_id ∧ 0 < b.qty_remaining := by
  unfold fifoQuery
  rw [mem_sortBatches, List.mem_filter]
  simp [and_assoc]

theorem fifoQuery_ids_nodup {db : List ItemBatch} {item_id : Nat}
    (h : (db.map ItemBatch.id).Nodup) :
    ((fifoQuery db item_id).map ItemBatch.id).Nodup := by
  unfold fifoQuery
  have hperm :=
    (sortBatches_perm
      (db.filter (fun b => b.item_id == item_id && decide (0 < b.qty_remaining)))).map
      ItemBatch.id
  refine hperm.nodup_iff.mpr ?_
  exact h.sublist ((List.filter_sublist db).map ItemBatch.id)

/-! ## Supporting lemmas: the FIFO walk -/

theorem fifoWalk_allocs_spec (item_id : Nat) (l : List ItemBatch) (q : Int)
    (hpos : ∀ b ∈ l, 0 < b.qty_remaining) :
    (fifoWalk item_id l q).1 = specFifoAllocs item_id l q := by
  induction l generalizing q with
  | nil => simp [fifoWalk, specFifoAllocs]
  | cons b rest ih =>
    by_cases hq : q ≤ 0
    · simp [fifoWalk, specFifoAllocs, hq]
    · have hb : 0 < b.qty_remaining := hpos b (List.mem_cons_self b rest)
      have htake : ¬ min b.qty_remaining q ≤ 0 := by
        push_neg
        exact lt_min hb (lt_of_not_le hq)
      simp only [fifoWalk, specFifoAllocs, if_neg hq, if_neg htake]
      rw [ih _ (fun c hc => hpos c (List.mem_cons_of_mem b hc))]

theorem fifoWalk_qty_sum (item_id : Nat) (l : List ItemBatch) (q : Int)
    (hpos : ∀ b ∈ l, 0 < b.qty_remaining) (h0 : 0 ≤ q)
    (hle : q ≤ (l.map (fun b => b.qty_remaining)).sum) :
    (((fifoWalk item_id l q).1).map (fun a => a.qty)).sum = q := by
  induction l generalizing q with
  | nil =>
    simp only [List.map_nil, List.sum_nil] at hle
    have : q = 0 := le_antisymm hle h0
    simp [fifoWalk, this]
  | cons b rest ih =>
    by_cases hq : q ≤ 0
    · have : q = 0 := le_antisymm hq h0
      simp [fifoWalk, this]
    · have hb : 0 < b.qty_remaining := hpos b (List.mem_cons_self b rest)
      have hqpos : 0 < q := lt_of_not_le hq
      have htake : ¬ min b.qty_remaining q ≤ 0 := by
        push_neg
        exact lt_min hb hqpos
      have hrest_nonneg : 0 ≤ (rest.map (fun c => c.qty_remaining)).sum :=
        List.sum_nonneg (by
          intro x hx
          obtain ⟨c, hc, rfl⟩ := List.mem_map.mp hx
          exact le_of_lt (hpos c (List.mem_cons_of_mem b hc)))
      have htq : min b.qty_remaining q ≤ q := min_le_right _ _
      have hsum : q - min b.qty_remaining q ≤
          (rest.map (fun c => c.qty_remaining)).sum := by
        rcases le_total b.qty_remaining q with hbq | hqb
        · have hmin : min b.qty_remaining q = b.qty_remaining := min_eq_left hbq
          rw [hmin]
          have hle2 := hle
          simp only [List.map_cons, List.sum_cons] at hle2
          linarith
        · have hmin : min b.qty_remaining q = q := min_eq_right hqb
          rw [hmin]
          simpa using hrest_nonneg
      simp only [fifoWalk, if_neg hq, if_neg htake, List.map_cons, List.sum_cons]
      rw [ih _ (fun c hc => hpos c (List.mem_cons_of_mem b hc))
        (by linarith) hsum]
      ring

theorem fifoWalk_allocs_mem (item_id : Nat) (l : List ItemBatch) (q : Int) :
    ∀ a ∈ (fifoWalk item_id l q).1, ∃ b ∈ l,
      a.batch_id = b.id ∧ a.unit_cost_cents = b.unit_cost_cents ∧
      a.item_id = item_id ∧ 0 < a.qty ∧ a.qty ≤ b.qty_remaining := by
  induction l generalizing q with
  | nil => simp [fifoWalk]
  | cons b rest ih =>
    intro a ha
    by_cases hq : q ≤ 0
    · simp [fifoWalk, hq] at ha
    · by_cases htake : min b.qty_remaining q ≤ 0
      · simp only [fifoWalk, if_neg hq, if_pos htake] at ha
        obtain ⟨c, hc, h⟩ := ih q a ha
        exact ⟨c, List.mem_cons_of_mem b hc, h⟩
      · simp only [fifoWalk, if_neg hq, if_neg htake, List.mem_cons] at ha
        rcases ha with rfl | ha
        · exact ⟨b, List.mem_cons_self b rest,
            rfl, rfl, rfl, lt_of_not_le htake, min_le_left _ _⟩
        · obtain ⟨c, hc, h⟩ := ih (q - min b.qty_remaining q) a ha
          exact ⟨c, List.mem_cons_of_mem b hc, h⟩

theorem fifoWalk_batch_ids (item_id : Nat) (l : List ItemBatch) (q : Int) :
    ∀ a ∈ (fifoWalk item_id l q).1, a.batch_id ∈ l.map ItemBatch.id := by
  intro a ha
  obtain ⟨b, hb, hid, -⟩ := fifoWalk_allocs_mem item_id l q a ha
  exact hid ▸ List.mem_map_of_mem ItemBatch.id hb

theorem allocatedTo_nil (batch_id : Nat) : allocatedTo [] batch_id = 0 := rfl

theorem allocatedTo_cons (a : Alloc) (as : List Alloc) (batch_id : Nat) :
    allocatedTo (a :: as) batch_id =
      (if a.batch_id = batch_id then a.qty else 0) + allocatedTo as batch_id := by
  by_cases h : a.batch_id = batch_id
  · simp [allocatedTo, List.filter_cons, h]
  · simp [allocatedTo, List.filter_cons, h]

theorem allocatedTo_eq_zero {as : List Alloc} {batch_id : Nat}
    (h : ∀ a ∈ as, a.batch_id ≠ batch_id) : allocatedTo as batch_id = 0 := by
  induction as with
  | nil => rfl
  | cons a rest ih =>
    rw [allocatedTo_cons, if_neg (h a (List.mem_cons_self a rest)),
      ih (fun x hx => h x (List.mem_cons_of_mem a hx))]
    ring

/-- Relation between a batch row before and after a FIFO walk: primary key and
every immutable field preserved, `qty_remaining` decremented by exactly the
quantity the allocation list takes from this batch. -/
def DecrementedBy (allocs : List Alloc) (b bOut : ItemBatch) : Prop :=
  bOut.id = b.id ∧ bOut.item_id = b.item_id ∧ bOut.qty_initial = b.qty_initial ∧
  bOut.unit_cost_cents = b.unit_cost_cents ∧ bOut.source_kind = b.source_kind ∧
  bOut.source_id = b.source_id ∧ bOut.created_at = b.created_at ∧
  bOut.qty_remaining = b.qty_remaining - allocatedTo allocs b.id

theorem decrementedBy_refl_of_zero {allocs : List Alloc} {b : ItemBatch}
    (h : allocatedTo allocs b.id = 0) : DecrementedBy allocs b b := by
  refine ⟨rfl, rfl, rfl, rfl, rfl, rfl, rfl, ?_⟩
  rw [h]
  ring

theorem forall₂_decrementedBy_nil (l : List ItemBatch) :
    List.Forall₂ (DecrementedBy []) l l := by
  induction l with
  | nil => exact List.Forall₂.nil
  | cons b rest ih =>
    exact List.Forall₂.cons (decrementedBy_refl_of_zero (allocatedTo_nil b.id)) ih

theorem forall₂_mem_left {α β : Type} {R : α → β → Prop} {l : List α} {l' : List β}
    (h : List.Forall₂ R l l') : ∀ b ∈ l, ∃ u ∈ l', R b u := by
  induction h with
  | nil => intro b hb; cases hb
  | cons hr _ ih =>
    intro b hb
    rcases List.mem_cons.mp hb with rfl | hb
    · exact ⟨_, List.mem_cons_self _ _, hr⟩
    · obtain ⟨u, hu, hru⟩ := ih b hb
      exact ⟨u, List.mem_cons_of_mem _ hu, hru⟩

theorem forall₂_mem_right {α β : Type} {R : α → β → Prop} {l : List α} {l' : List β}
    (h : List.Forall₂ R l l') : ∀ u ∈ l', ∃ b ∈ l, R b u := by
  induction h with
  | nil => intro u hu; cases hu
  | cons hr _ ih =>
    intro u hu
    rcases List.mem_cons.mp hu with rfl | hu
    · exact ⟨_, List.mem_cons_self _ _, hr⟩
    · obtain ⟨b, hb, hrb⟩ := ih u hu
      exact ⟨b, List.mem_cons_of_mem _ hb, hrb⟩

theorem forall₂_imp_mem {α β : Type} {R S : α → β → Prop} {l : List α} {l' : List β}
    (h : List.Forall₂ R l l') (himp : ∀ b ∈ l, ∀ u, R b u → S b u) :
    List.Forall₂ S l l' := by
  induction h with
  | nil => exact List.Forall₂.nil
  | cons hr htail ih =>
    refine List.Forall₂.cons (himp _ (List.mem_cons_self _ _) _ hr) ?_
    exact ih (fun b hb u hru => himp b (List.mem_cons_of_mem _ hb) u hru)

theorem forall₂_decrement_ids {allocs : List Alloc} {l l' : List ItemBatch}
    (h : List.Forall₂ (DecrementedBy allocs) l l') :
    l'.map ItemBatch.id = l.map ItemBatch.id := by
  induction h with
  | nil => rfl
  | cons hr _ ih => simp [hr.1, ih]

/-- The FIFO walk changes each queried batch by exactly the quantity allocated
from it and nothing else (stated for primary-key-unique batch lists). -/
theorem fifoWalk_decrement (item_id : Nat) (l : List ItemBatch) (q : Int)
    (hnodup : (l.map ItemBatch.id).Nodup) :
    List.Forall₂ (DecrementedBy (fifoWalk item_id l q).1) l (fifoWalk item_id l q).2 := by
  induction l generalizing q with
  | nil => exact List.Forall₂.nil
  | cons b rest ih =>
    have hnotin : b.id ∉ rest.map ItemBatch.id := by
      rw [List.map_cons, List.nodup_cons] at hnodup
      exact hnodup.1
    have hnodup1 : (rest.map ItemBatch.id).Nodup := by
      rw [List.map_cons, List.nodup_cons] at hnodup
      exact hnodup.2
    have hne_of_walk : ∀ q1, ∀ a ∈ (fifoWalk item_id rest q1).1, a.batch_id ≠ b.id := by
      intro q1 a ha heq
      exact hnotin (heq ▸ fifoWalk_batch_ids item_id rest q1 a ha)
    by_cases hq : q ≤ 0
    · simp only [fifoWalk, if_pos hq]
      exact forall₂_decrementedBy_nil (b :: rest)
    · by_cases htake : min b.qty_remaining q ≤ 0
      · simp only [fifoWalk, if_neg hq, if_pos htake]
        refine List.Forall₂.cons ?_ (ih q hnodup1)
        exact decrementedBy_refl_of_zero (allocatedTo_eq_zero (hne_of_walk q))
      · simp only [fifoWalk, if_neg hq, if_neg htake]
        refine List.Forall₂.cons ?_ ?_
        · refine ⟨rfl, rfl, rfl, rfl, rfl, rfl, rfl, ?_⟩
          rw [allocatedTo_cons, if_pos rfl,
            allocatedTo_eq_zero (hne_of_walk (q - min b.qty_remaining q))]
          ring
        · refine forall₂_imp_mem (ih (q - min b.qty_remaining q) hnodup1) ?_
          intro c hc u hru
          have hcid : c.id ≠ b.id := by
            intro heq
            exact hnotin (heq ▸ List.mem_map_of_mem ItemBatch.id hc)
          refine ⟨hru.1, hru.2.1, hru.2.2.1, hru.2.2.2.1, hru.2.2.2.2.1,
            hru.2.2.2.2.2.1, hru.2.2.2.2.2.2.1, ?_⟩
          rw [hru.2.2.2.2.2.2.2, allocatedTo_cons,
            if_neg (fun heq => hcid heq.symm)]
          ring

/-- Writing the walked batches back into the table by primary key: every
batch of a key-unique table evolves by exactly its allocated decrement. -/
theorem mergeById_decrement (db : List ItemBatch) (item_id : Nat) (q : Int)
    (hnodup : (db.map ItemBatch.id).Nodup) :
    ∀ b ∈ db, ∃ b' ∈ mergeById db (fifoWalk item_id (fifoQuery db item_id) q).2,
      DecrementedBy (fifoWalk item_id (fifoQuery db item_id) q).1 b b' := by
  intro b hb
  have hlnodup : ((fifoQuery db item_id).map ItemBatch.id).Nodup :=
    fifoQuery_ids_nodup hnodup
  have hfa := fifoWalk_decrement item_id (fifoQuery db item_id) q hlnodup
  have hids := forall₂_decrement_ids hfa
  have hwalk_nodup : ((fifoWalk item_id (fifoQuery db item_id) q).2.map ItemBatch.id).Nodup := by
    rw [hids]
    exact hlnodup
  refine ⟨_, List.mem_map_of_mem _ hb, ?_⟩
  by_cases hmem : b ∈ fifoQuery db item_id
  · obtain ⟨u, hu, hru⟩ := forall₂_mem_left hfa b hmem
    cases hfind : (fifoWalk item_id (fifoQuery db item_id) q).2.find?
        (fun u' => u'.id == b.id) with
    | none =>
      exact absurd (by simpa using hru.1)
        (by simpa using List.find?_eq_none.mp hfind u hu)
    | some u0 =>
      have hu0mem := List.mem_of_find?_eq_some hfind
      have hu0id : u0.id = b.id := by
        have := List.find?_some hfind
        simpa using this
      have : u0 = u :=
        List.inj_on_of_nodup_map hwalk_nodup hu0mem hu (by rw [hu0id, hru.1])
      simpa [this] using hru
  · have hnotid : b.id ∉ (fifoQuery db item_id).map ItemBatch.id := by
      intro hid
      obtain ⟨c, hc, hcid⟩ := List.mem_map.mp hid
      have : c = b :=
        List.inj_on_of_nodup_map hnodup (mem_fifoQuery.mp hc).1 hb hcid
      exact hmem (this ▸ hc)
    have hfind : (fifoWalk item_id (fifoQuery db item_id) q).2.find?
        (fun u' => u'.id == b.id) = none := by
      rw [List.find?_eq_none]
      intro u hu hbeq
      have hid : u.id = b.id := by simpa using hbeq
      obtain ⟨c, hc, hrc⟩ := forall₂_mem_right hfa u hu
      have hcid : c.id = b.id := by rw [← hrc.1, hid]
      exact hnotid (hcid ▸ List.mem_map_of_mem ItemBatch.id hc)
    have hzero : allocatedTo (fifoWalk item_id (fifoQuery db item_id) q).1 b.id = 0 := by
      refine allocatedTo_eq_zero ?_
      intro a ha heq
      exact hnotid (heq ▸ fifoWalk_batch_ids item_id (fifoQuery db item_id) q a ha)
    simpa [hfind] using decrementedBy_refl_of_zero hzero

/-! ## Claim C1: FIFO allocation order, greedy take, cost carrying -/

/-- C1: for every item and FIFO consumption of `q > 0` with sufficient
availability, `fifo.allocate` succeeds and (1) its allocation list is exactly
the spec's oldest-first greedy walk over the `(created_at, id)`-ascending
positive-remainder batches — taking `min(remaining, still-needed)` from each
and stopping once satisfied; (2) the allocated quantities sum to exactly `q`;
(3) every allocation carries its source batch's original `unit_cost_cents`;
and (4) every batch row of the table evolves by exactly its allocated
decrement (so batches past the stopping point, with nothing allocated, are
untouched). -/
theorem fifo_allocation_walks_oldest_first (db : List ItemBatch) (item_id : Nat)
    (q : Int) (hq : 0 < q)
    (hav : q ≤ ((fifoQuery db item_id).map (fun b => b.qty_remaining)).sum)
    (hnodup : (db.map ItemBatch.id).Nodup) :
    (fifo_allocate db item_id q).1 =
        .ok (specFifoAllocs item_id (fifoQuery db item_id) q) ∧
    ((specFifoAllocs item_id (fifoQuery db item_id) q).map (fun a => a.qty)).sum = q ∧
    (∀ a ∈ specFifoAllocs item_id (fifoQuery db item_id) q,
      ∃ b ∈ fifoQuery db item_id,
        a.batch_id = b.id ∧ a.unit_cost_cents = b.unit_cost_cents ∧
        0 < a.qty ∧ a.qty ≤ b.qty_remaining) ∧
    (∀ b ∈ db, ∃ bOut ∈ (fifo_allocate db item_id q).2,
      DecrementedBy (specFifoAllocs item_id (fifoQuery db item_id) q) b bOut) := by
  have hpos : ∀ b ∈ fifoQuery db item_id, 0 < b.qty_remaining :=
    fun b hb => (mem_fifoQuery.mp hb).2.2
  have hspec := fifoWalk_allocs_spec item_id (fifoQuery db item_id) q hpos
  have hresult : fifo_allocate db item_id q =
      (.ok (fifoWalk item_id (fifoQuery db item_id) q).1,
        mergeById db (fifoWalk item_id (fifoQuery db item_id) q).2) := by
    rw [fifo_allocate, if_neg (not_le.mpr hq), if_neg (not_lt.mpr hav)]
  refine ⟨?_, ?_, ?_, ?_⟩
  · rw [hresult, ← hspec]
  · rw [← hspec]
    exact fifoWalk_qty_sum item_id (fifoQuery db item_id) q hpos (le_of_lt hq) hav
  · rw [← hspec]
    intro a ha
    obtain ⟨b, hb, h1, h2, h3, h4, h5⟩ :=
      fifoWalk_allocs_mem item_id (fifoQuery db item_id) q a ha
    exact ⟨b, hb, h1, h2, h4, h5⟩
  · rw [hresult, ← hspec]
    exact mergeById_decrement db item_id q hnodup

/-- Witness for C1: the spec §8 scenario — batches created at t1 < t2 < t3
with remaining [4, 4, 4] and a consumption of 6 allocates exactly 4 from the
t1 batch and 2 from the t2 batch (each carrying its batch's cost), total 6,
with the t3 batch untouched. -/
theorem fifo_allocation_walks_oldest_first_witness :
    ((0 : Int) < 6 ∧
      (6 : Int) ≤ ((fifoQuery
        [⟨1, 7, 4, 4, 11, "purchase", none, 1⟩,
         ⟨2, 7, 4, 4, 22, "purchase", none, 2⟩,
         ⟨3, 7, 4, 4, 33, "purchase", none, 3⟩] 7).map
          (fun b => b.qty_remaining)).sum ∧
      (([⟨1, 7, 4, 4, 11, "purchase", none, 1⟩,
         ⟨2, 7, 4, 4, 22, "purchase", none, 2⟩,
         ⟨3, 7, 4, 4, 33, "purchase", none, 3⟩] : List ItemBatch).map
          ItemBatch.id).Nodup) ∧
    specFifoAllocs 7 (fifoQuery
        [⟨1, 7, 4, 4, 11, "purchase", none, 1⟩,
         ⟨2, 7, 4, 4, 22, "purchase", none, 2⟩,
         ⟨3, 7, 4, 4, 33, "purchase", none, 3⟩] 7) 6 =
      [⟨7, 1, 4, 11⟩, ⟨7, 2, 2, 22⟩] ∧
    (fifo_allocate
        [⟨1, 7, 4, 4, 11, "purchase", none, 1⟩,
         ⟨2, 7, 4, 4, 22, "purchase", none, 2⟩,
         ⟨3, 7, 4, 4, 33, "purchase", none, 3⟩] 7 6).1 =
      .ok (specFifoAllocs 7 (fifoQuery
        [⟨1, 7, 4, 4, 11, "purchase", none, 1⟩,
         ⟨2, 7, 4, 4, 22, "purchase", none, 2⟩,
         ⟨3, 7, 4, 4, 33, "purchase", none, 3⟩] 7) 6) := by
  refine ⟨⟨by decide, by decide, by decide⟩, by decide, ?_⟩
  exact (fifo_allocation_walks_oldest_first
    [⟨1, 7, 4, 4, 11, "purchase", none, 1⟩,
     ⟨2, 7, 4, 4, 22, "purchase", none, 2⟩,
     ⟨3, 7, 4, 4, 33, "purchase", none, 3⟩] 7 6
    (by decide) (by decide) (by decide)).1

/-! ## Claim C2: no-oversell fail-fast -/

/-- C2: when the requested quantity exceeds the summed availability,
`fifo.allocate` raises `InsufficientStock` carrying the shortage detail
(required, on-hand availability, missing difference) and leaves the batch
table exactly as it was, and the movement-writing `fifo_consume` wrapper
propagates the same error having written nothing (no world is committed). -/
theorem insufficient_stock_fail_fast (db : List ItemBatch) (item_id : Nat)
    (q available : Int) (hq : 0 < q)
    (havail : ((fifoQuery db item_id).map (fun b => b.qty_remaining)).sum = available)
    (hlt : available < q) :
    fifo_allocate db item_id q =
      (.error ⟨item_id, q, available, q - available⟩, db) ∧
    ∀ (w : World) (source_kind : String) (source_id : Option String) (now : Nat),
      w.batches = db →
      fifo_consume w item_id q source_kind source_id now =
        .error ⟨item_id, q, available, q - available⟩ := by
  subst havail
  have halloc : fifo_allocate db item_id q =
      (.error ⟨item_id, q,
        ((fifoQuery db item_id).map (fun b => b.qty_remaining)).sum,
        q - ((fifoQuery db item_id).map (fun b => b.qty_remaining)).sum⟩, db) := by
    rw [fifo_allocate, if_neg (not_le.mpr hq), if_pos hlt]
  refine ⟨halloc, ?_⟩
  intro w source_kind source_id now hw
  rw [fifo_consume, hw, halloc]

/-- Witness for C2: requesting 13 from an item with remaining [4, 4, 4]
raises the shortage (required 13, on-hand 12, missing 1) and changes no
batch and no movement. -/
theorem insufficient_stock_fail_fast_witness :
    ((0 : Int) < 13 ∧
      ((fifoQuery
        [⟨1, 7, 4, 4, 11, "purchase", none, 1⟩,
         ⟨2, 7, 4, 4, 22, "purchase", none, 2⟩,
         ⟨3, 7, 4, 4, 33, "purchase", none, 3⟩] 7).map
          (fun b => b.qty_remaining)).sum = 12 ∧ (12 : Int) < 13) ∧
    fifo_allocate
        [⟨1, 7, 4, 4, 11, "purchase", none, 1⟩,
         ⟨2, 7, 4, 4, 22, "purchase", none, 2⟩,
         ⟨3, 7, 4, 4, 33, "purchase", none, 3⟩] 7 13 =
      (.error ⟨7, 13, 12, 1⟩,
        [⟨1, 7, 4, 4, 11, "purchase", none, 1⟩,
         ⟨2, 7, 4, 4, 22, "purchase", none, 2⟩,
         ⟨3, 7, 4, 4, 33, "purchase", none, 3⟩]) := by
  refine ⟨⟨by decide, by decide, by decide⟩, ?_⟩
  have h := (insufficient_stock_fail_fast
    [⟨1, 7, 4, 4, 11, "purchase", none, 1⟩,
     ⟨2, 7, 4, 4, 22, "purchase", none, 2⟩,
     ⟨3, 7, 4, 4, 33, "purchase", none, 3⟩] 7 13 12
    (by decide) (by decide) (by decide)).1
  simpa using h

/-! ## Claim C6: the quantity normalization contract -/

/-- C6: quantity normalization (1) rejects a unit-of-measure absent from the
dimension's table with `unsupported_uom`; (2) rejects the empty string, a bare
sign and a bare dot; (3) after comma-stripping and dot-padding, multiplies the
parsed decimal `m/10^e` by the multiplier and rejects any product that is not
an exact integer with `fractional_base_quantity_not_allowed` (never
truncating); (4) rejects a non-positive final integer; and (5) otherwise
returns exactly the product `parsed * multiplier` as an integer.  Concrete
instances: comma stripping, leading-dot padding, a fractional product and a
non-positive quantity. -/
theorem quantity_normalization_contract :
    (∀ d u q, UNIT_MULTIPLIER (norm_dimension d) (norm_unit u) = none →
      normalize_quantity_to_base_int d u q = .error .unsupported_uom) ∧
    (∀ d u (m : Int), UNIT_MULTIPLIER (norm_dimension d) (norm_unit u) = some m →
      normalize_quantity_to_base_int d u "" = .error .invalid_quantity ∧
      normalize_quantity_to_base_int d u "-" = .error .invalid_quantity ∧
      normalize_quantity_to_base_int d u "+" = .error .invalid_quantity ∧
      normalize_quantity_to_base_int d u "." = .error .invalid_quantity) ∧
    (∀ d u (m : Int) q p,
      UNIT_MULTIPLIER (norm_dimension d) (norm_unit u) = some m →
      (cleanQuantityString q == "" || cleanQuantityString q == "." ||
        cleanQuantityString q == "-." || cleanQuantityString q == "+.") = false →
      parseDecimal (padLeadingDot (cleanQuantityString q)) = some p →
      (¬ ((10 : Int) ^ p.2 ∣ p.1 * m) →
        normalize_quantity_to_base_int d u q =
          .error .fractional_base_quantity_not_allowed) ∧
      ((10 : Int) ^ p.2 ∣ p.1 * m → p.1 * m / (10 : Int) ^ p.2 ≤ 0 →
        normalize_quantity_to_base_int d u q = .error .invalid_quantity) ∧
      ((10 : Int) ^ p.2 ∣ p.1 * m → 0 < p.1 * m / (10 : Int) ^ p.2 →
        normalize_quantity_to_base_int d u q = .ok (p.1 * m / (10 : Int) ^ p.2) ∧
        ((p.1 * m / (10 : Int) ^ p.2 : Int) : ℚ) = decValue p * (m : ℚ))) ∧
    normalize_quantity_to_base_int "count" "ea" "1,234" = .ok 1234000 ∧
    normalize_quantity_to_base_int "count" "ea" ".5" = .ok 500 ∧
    normalize_quantity_to_base_int "count" "mc" "0.5" =
      .error .fractional_base_quantity_not_allowed ∧
    normalize_quantity_to_base_int "count" "ea" "0" = .error .invalid_quantity := by
  refine ⟨?_, ?_, ?_, by decide, by decide, by decide, by decide⟩
  · intro d u q h
    simp only [normalize_quantity_to_base_int, h]
  · intro d u m h
    refine ⟨?_, ?_, ?_, ?_⟩ <;> · simp only [normalize_quantity_to_base_int, h]; rfl
  · intro d u m q p h hC hp
    have hbase : ∀ (r : Except QtyError Int),
        (if ¬ ((10 : Int) ^ p.2 ∣ p.1 * m) then
          (.error .fractional_base_quantity_not_allowed : Except QtyError Int)
        else if p.1 * m / (10 : Int) ^ p.2 ≤ 0 then .error .invalid_quantity
        else .ok (p.1 * m / (10 : Int) ^ p.2)) = r →
        normalize_quantity_to_base_int d u q = r := by
      intro r hr
      rw [← hr]
      simp only [normalize_quantity_to_base_int, h, hC, hp]
      rfl
    refine ⟨?_, ?_, ?_⟩
    · intro hdvd
      exact hbase _ (by rw [if_pos hdvd])
    · intro hdvd hle
      exact hbase _ (by rw [if_neg (not_not.mpr hdvd), if_pos hle])
    · intro hdvd hpos
      refine ⟨hbase _ (by rw [if_neg (not_not.mpr hdvd), if_neg (not_le.mpr hpos)]), ?_⟩
      obtain ⟨k, hk⟩ := hdvd
      have hpow : ((10 : Int) ^ p.2) ≠ 0 := by positivity
      have hdiv : p.1 * m / (10 : Int) ^ p.2 = k := by
        rw [hk]
        exact Int.mul_ediv_cancel_left k hpow
      have hpowq : ((10 : ℚ) ^ p.2) ≠ 0 := by positivity
      rw [hdiv, decValue]
      have hkq : (p.1 : ℚ) * (m : ℚ) = (10 : ℚ) ^ p.2 * (k : ℚ) := by
        exact_mod_cast congrArg (fun z : Int => (z : ℚ)) hk
      field_simp
      push_cast at hkq ⊢
      linarith [hkq]

/-- Witness for C6: an unsupported unit errors; the empty string errors; and
"2" ea parses to mantissa 2 with no fractional digits and normalizes to the
exact product 2 * 1000. -/
theorem quantity_normalization_contract_witness :
    (UNIT_MULTIPLIER (norm_dimension "count") (norm_unit "zz") = none ∧
      normalize_quantity_to_base_int "count" "zz" "7" = .error .unsupported_uom) ∧
    (UNIT_MULTIPLIER (norm_dimension "count") (norm_unit "ea") = some 1000 ∧
      normalize_quantity_to_base_int "count" "ea" "" = .error .invalid_quantity) ∧
    (parseDecimal (padLeadingDot (cleanQuantityString "2")) = some (2, 0) ∧
      normalize_quantity_to_base_int "count" "ea" "2" =
        .ok (2 * 1000 / (10 : Int) ^ (0 : Nat))) := by
  refine ⟨⟨by decide, quantity_normalization_contract.1 "count" "zz" "7" (by decide)⟩,
    ⟨by decide, (quantity_normalization_contract.2.1 "count" "ea" 1000 (by decide)).1⟩,
    ⟨by decide, ?_⟩⟩
  exact ((quantity_normalization_contract.2.2.1 "count" "ea" 1000 "2" (2, 0)
    (by decide) (by decide) (by decide)).2.2 (by decide) (by decide)).1

/-! ## Claim C3: manufacturing cost roll-up and output batch -/

/-- The unit multiplier of an item's basis unit-of-measure, looked up by item
id — the conversion used by `_cost_cents_for_base_qty` and the output costing
of `execute_run_txn`. -/
def itemBasisMult (items : List Item) (item_id : Nat) : Option Int :=
  match items.find? (fun it => it.id == item_id) with
  | none => none
  | some it =>
    uom_multiplier (if it.dimension == "" then "count" else it.dimension)
      (_basis_uom_for_item it)

/-- One allocation's contribution to `cost_inputs_cents`, in the source's
human-units formula: `round_half_up(unit_cost * (qty_base / multiplier))`. -/
def allocLineCost (items : List Item) (a : Alloc) : Int :=
  round_half_up_cents ((a.unit_cost_cents : ℚ) *
    ((a.qty : ℚ) / (((itemBasisMult items a.item_id).getD 0 : Int) : ℚ)))

theorem costOfAllocs_characterization (items : List Item) (allocs : List Alloc)
    (c : Int) (h : costOfAllocs items allocs = .ok c) :
    c = (allocs.map (allocLineCost items)).sum ∧
    ∀ a ∈ allocs, ∃ m, itemBasisMult items a.item_id = some m ∧ 0 < m := by
  induction allocs generalizing c with
  | nil =>
    simp only [costOfAllocs] at h
    injection h with h
    subst h
    exact ⟨rfl, by intro a ha; cases ha⟩
  | cons a rest ih =>
    simp only [costOfAllocs] at h
    cases hfind : items.find? (fun it => it.id == a.item_id) with
    | none => rw [hfind] at h; cases h
    | some it =>
      rw [hfind] at h
      simp only [_cost_cents_for_base_qty] at h
      cases hmult : uom_multiplier (if it.dimension == "" then "count" else it.dimension)
          (_basis_uom_for_item it) with
      | none => rw [hmult] at h; cases h
      | some mult =>
        simp only [hmult] at h
        by_cases hm : mult ≤ 0
        · rw [if_pos hm] at h; cases h
        · rw [if_neg hm] at h
          cases hrest : costOfAllocs items rest with
          | error e => simp only [hrest] at h; cases h
          | ok srest =>
            simp only [hrest] at h
            injection h with h
            obtain ⟨ihsum, ihmem⟩ := ih srest hrest
            have hbasis : itemBasisMult items a.item_id = some mult := by
              simp only [itemBasisMult, hfind]
              exact hmult
            have hmpos : 0 < mult := lt_of_not_le hm
            constructor
            · rw [← h, ihsum, List.map_cons, List.sum_cons]
              congr 1
              rw [allocLineCost, hbasis]
              exact cost_cents_eq_human_form a.unit_cost_cents a.qty mult hmpos
            · intro x hx
              rcases List.mem_cons.mp hx with rfl | hx
              · exact ⟨mult, hbasis, hmpos⟩
              · exact ihmem x hx

/-- C3: for every successful manufacturing execution, (1) `cost_inputs_cents`
is the sum over component allocations of
`round_half_up(batch_unit_cost * (consumed_base_qty / component_multiplier))`
— the consumed quantity converted to the component item's human units; (2)
`per_output_cents = round_half_up(cost_inputs_cents / output_human_qty)` with
`output_human_qty = output_qty_base / output_multiplier > 0`; (3) exactly one
output batch is appended with `qty_initial = qty_remaining = output_qty_base`,
`unit_cost_cents = per_output_cents`, `source_kind = "manufacturing"` and
`source_id` the run's id, together with its matching positive movement; and a
zero-or-negative output human quantity is rejected as `invalid_output_qty`. -/
theorem mfg_execute_costs_and_output :
    (∀ (w : World) (recipe_id : Option Nat) (notes : Option String)
        (output_item_id : Nat) (required_components : List RequiredComponent)
        (output_qty_base : Int) (now : Nat) (r : ExecResult),
      execute_run_txn w recipe_id notes output_item_id required_components
          output_qty_base now = .ok r →
      (r.cost_inputs_cents = (r.allocations.map (allocLineCost w.items)).sum ∧
        ∀ a ∈ r.allocations, ∃ m, itemBasisMult w.items a.item_id = some m ∧ 0 < m) ∧
      (∃ out_mult, itemBasisMult w.items output_item_id = some out_mult ∧
        0 < out_mult ∧ 0 < output_qty_base ∧
        0 < (output_qty_base : ℚ) / (out_mult : ℚ) ∧
        r.per_output_cents = round_half_up_cents
          ((r.cost_inputs_cents : ℚ) / ((output_qty_base : ℚ) / (out_mult : ℚ)))) ∧
      (∃ db1, allocLoop required_components w.batches = .ok (r.allocations, db1) ∧
        r.world.batches = db1 ++
          [⟨w.next_batch_id, output_item_id, output_qty_base, output_qty_base,
            r.per_output_cents, "manufacturing", some (toString w.next_run_id), now⟩]) ∧
      r.run_id = w.next_run_id ∧
      r.world.movements = w.movements ++
        r.allocations.map (fun a =>
          ⟨a.item_id, some a.batch_id, -a.qty, a.unit_cost_cents, "manufacturing",
            some (toString w.next_run_id), now⟩) ++
        [⟨output_item_id, some w.next_batch_id, output_qty_base, r.per_output_cents,
          "manufacturing", some (toString w.next_run_id), now⟩]) ∧
    (∀ (w : World) (recipe_id : Option Nat) (notes : Option String)
        (output_item_id : Nat) (required_components : List RequiredComponent)
        (output_qty_base : Int) (now : Nat) allocs db1 (c : Int) it (out_mult : Int),
      allocLoop required_components w.batches = .ok (allocs, db1) →
      costOfAllocs w.items allocs = .ok c →
      w.items.find? (fun i => i.id == output_item_id) = some it →
      uom_multiplier (if it.dimension == "" then "count" else it.dimension)
        (_basis_uom_for_item it) = some out_mult →
      0 < out_mult →
      (output_qty_base : ℚ) / (out_mult : ℚ) ≤ 0 →
      execute_run_txn w recipe_id notes output_item_id required_components
          output_qty_base now = .error .invalid_output_qty) := by
  constructor
  · intro w recipe_id notes output_item_id required_components output_qty_base now r hok
    unfold execute_run_txn at hok
    cases h1 : allocLoop required_components w.batches with
    | error s => rw [h1] at hok; cases hok
    | ok pr =>
      obtain ⟨allocs, db1⟩ := pr
      simp only [h1] at hok
      cases h2 : costOfAllocs w.items allocs with
      | error e => simp only [h2] at hok; cases hok
      | ok c =>
        simp only [h2] at hok
        cases h3 : w.items.find? (fun i => i.id == output_item_id) with
        | none => simp only [h3] at hok; cases hok
        | some output_item =>
          simp only [h3] at hok
          cases h4 : uom_multiplier
              (if output_item.dimension == "" then "count" else output_item.dimension)
              (_basis_uom_for_item output_item) with
          | none => simp only [h4] at hok; cases hok
          | some out_mult =>
            simp only [h4] at hok
            by_cases hm : out_mult ≤ 0
            · rw [if_pos hm] at hok; cases hok
            · rw [if_neg hm] at hok
              by_cases hq : output_qty_base ≤ 0
              · rw [if_pos hq] at hok; cases hok
              · rw [if_neg hq] at hok
                injection hok with hok
                subst hok
                have hmpos : 0 < out_mult := lt_of_not_le hm
                have hqpos : 0 < output_qty_base := lt_of_not_le hq
                have hbasis : itemBasisMult w.items output_item_id = some out_mult := by
                  simp only [itemBasisMult, h3]
                  exact h4
                obtain ⟨hsum, hmem⟩ := costOfAllocs_characterization w.items allocs c h2
                refine ⟨⟨hsum, hmem⟩, ?_, ⟨db1, rfl, rfl⟩, rfl, rfl⟩
                refine ⟨out_mult, hbasis, hmpos, hqpos, ?_, ?_⟩
                · exact div_pos (by exact_mod_cast hqpos) (by exact_mod_cast hmpos)
                · exact per_output_eq_human_form c output_qty_base out_mult hqpos
  · intro w recipe_id notes output_item_id required_components output_qty_base now
      allocs db1 c it out_mult h1 h2 h3 h4 hmpos hhuman
    have hq : output_qty_base ≤ 0 := by
      by_contra hpos
      have : 0 < (output_qty_base : ℚ) / (out_mult : ℚ) :=
        div_pos (by exact_mod_cast lt_of_not_le hpos) (by exact_mod_cast hmpos)
      linarith
    unfold execute_run_txn
    simp only [h1, h2, h3, h4]
    rw [if_neg (not_le.mpr hmpos), if_pos hq]

/-- Input world of the spec §8 manufacturing scenario: a count/ea input item
with batches of 4 ea @ 10¢ and 4 ea @ 20¢ (4000 base units each), and a
count/ea output item. -/
def c3World : World :=
  ⟨[⟨1, "Input", "count", some "ea", 0, 8000⟩, ⟨2, "Output", "count", some "ea", 0, 0⟩],
    [⟨1, 1, 4000, 4000, 10, "purchase", none, 1⟩,
     ⟨2, 1, 4000, 4000, 20, "purchase", none, 2⟩],
    [], [], [], 3, 1⟩

/-- Expected result of executing the §8 run (6000 base consumed, 2000 base
produced): consumption movements (-4000 @ 10¢) and (-2000 @ 20¢),
`cost_inputs_cents = 80`, output batch of 2000 base at 40¢. -/
def c3Result : ExecResult :=
  { world :=
      ⟨[⟨1, "Input", "count", some "ea", 0, 2000⟩, ⟨2, "Output", "count", some "ea", 0, 2000⟩],
        [⟨1, 1, 4000, 0, 10, "purchase", none, 1⟩,
         ⟨2, 1, 4000, 2000, 20, "purchase", none, 2⟩,
         ⟨3, 2, 2000, 2000, 40, "manufacturing", some "1", 5⟩],
        [⟨1, some 1, -4000, 10, "manufacturing", some "1", 5⟩,
         ⟨1, some 2, -2000, 20, "manufacturing", some "1", 5⟩,
         ⟨2, some 3, 2000, 40, "manufacturing", some "1", 5⟩],
        [],
        [⟨1, none, 2, 2000, "completed", none, some 5, some ⟨2000, 80, 40, 3⟩⟩],
        4, 2⟩,
    run_id := 1,
    allocations := [⟨1, 1, 4000, 10⟩, ⟨1, 2, 2000, 20⟩],
    cost_inputs_cents := 80,
    per_output_cents := 40,
    output_batch_id := 3 }

/-- Witness for C3: the §8 scenario executes successfully with
`cost_inputs_cents = 80` equal to the human-units cost sum, and
`per_output_cents = 40 = round_half_up(80 / 2 ea)`; the output batch is 2000
base at 40¢ tagged manufacturing/run-id. -/
theorem mfg_execute_costs_and_output_witness :
    execute_run_txn c3World none none 2 [⟨1, 6000, false⟩] 2000 5 = .ok c3Result ∧
    c3Result.cost_inputs_cents =
      (c3Result.allocations.map (allocLineCost c3World.items)).sum ∧
    (∃ out_mult, itemBasisMult c3World.items 2 = some out_mult ∧
      0 < out_mult ∧ 0 < (2000 : Int) ∧
      0 < ((2000 : Int) : ℚ) / (out_mult : ℚ) ∧
      c3Result.per_output_cents = round_half_up_cents
        ((c3Result.cost_inputs_cents : ℚ) / (((2000 : Int) : ℚ) / (out_mult : ℚ)))) ∧
    c3Result.cost_inputs_cents = 80 ∧ c3Result.per_output_cents = 40 := by
  have h := mfg_execute_costs_and_output.1 c3World none none 2 [⟨1, 6000, false⟩]
    2000 5 c3Result (by decide)
  exact ⟨by decide, h.1.1, h.2.1, by decide, by decide⟩

/-! ## Claim C4: sale path — count-only guard, shared correlation id, atomicity -/

theorem fifo_allocate_allocs_pos (db : List ItemBatch) (item_id : Nat) (q : Int)
    (allocs : List Alloc) (h : (fifo_allocate db item_id q).1 = .ok allocs) :
    ∀ a ∈ allocs, 0 < a.qty ∧ a.item_id = item_id := by
  by_cases hq : q ≤ 0
  · rw [fifo_allocate, if_pos hq] at h
    injection h with h
    subst h
    intro a ha
    cases ha
  · rw [fifo_allocate, if_neg hq] at h
    by_cases hav : ((fifoQuery db item_id).map (fun b => b.qty_remaining)).sum < q
    · rw [if_pos hav] at h
      cases h
    · rw [if_neg hav] at h
      injection h with h
      subst h
      intro a ha
      obtain ⟨b, -, -, -, hitem, hpos, -⟩ :=
        fifoWalk_allocs_mem item_id (fifoQuery db item_id) q a ha
      exact ⟨hpos, hitem⟩

theorem fifo_consume_ok (w : World) (item_id : Nat) (qty : Int)
    (source_kind : String) (source_id : Option String) (now : Nat)
    (w1 : World) (moves : List ItemMovement)
    (h : fifo_consume w item_id qty source_kind source_id now = .ok (w1, moves)) :
    w1.cash_events = w.cash_events ∧ w1.items = w.items ∧ w1.runs = w.runs ∧
    w1.movements = w.movements ++ moves ∧
    w1.batches = (fifo_allocate w.batches item_id qty).2 ∧
    ∀ m ∈ moves, m.source_kind = source_kind ∧ m.source_id = source_id ∧
      m.qty_change < 0 ∧ m.created_at = now := by
  rw [fifo_consume] at h
  rcases halloc : fifo_allocate w.batches item_id qty with ⟨res, db2⟩
  rw [halloc] at h
  cases res with
  | error s => cases h
  | ok allocs =>
    have hres1 : (fifo_allocate w.batches item_id qty).1 = .ok allocs := by
      rw [halloc]
    have hres2 : (fifo_allocate w.batches item_id qty).2 = db2 := by
      rw [halloc]
    simp only at h
    injection h with h
    injection h with hw hmoves
    subst hw
    refine ⟨rfl, rfl, rfl, by rw [← hmoves], rfl, ?_⟩
    intro m hm
    rw [← hmoves] at hm
    obtain ⟨a, ha, rfl⟩ := List.mem_map.mp hm
    obtain ⟨hapos, -⟩ := fifo_allocate_allocs_pos w.batches item_id qty allocs hres1 a ha
    exact ⟨rfl, rfl, by simpa using hapos, rfl⟩

theorem withTransaction_rollback {E A : Type} (w : World)
    (body : World → Except E (World × A))
    (h : (withTransaction w body).1.isOk = false) :
    (withTransaction w body).2 = w := by
  rw [withTransaction] at h ⊢
  cases hb : body w with
  | ok pr =>
    obtain ⟨w1, a⟩ := pr
    rw [hb] at h
    simp [Except.isOk, Except.toBool] at h
  | error e => rfl

theorem withTransaction_of_body_error {E A : Type} (w : World)
    (body : World → Except E (World × A)) (e : E) (h : body w = .error e) :
    withTransaction w body = (.error e, w) := by
  rw [withTransaction, h]

/-- Every error outcome of `perform_stock_out_base` leaves the world exactly
as before the call: validation errors are raised before the transaction and
`InsufficientStock` aborts it before any write. -/
theorem withTransaction_world {E A : Type} (w : World)
    (body : World → Except E (World × A)) :
    (withTransaction w body).2 = w ∨ (withTransaction w body).1.isOk = true := by
  rw [withTransaction]
  cases hb : body w with
  | ok pr =>
    obtain ⟨w1, a⟩ := pr
    right
    rfl
  | error e =>
    left
    rfl

theorem stock_out_error_leaves_world (w : World) (item_id : Nat) (qty_base : Int)
    (ref : Option String) (meta : StockOutMeta) (fresh : String) (now : Nat) :
    (perform_stock_out_base w item_id qty_base ref meta fresh now).2 = w ∨
    (perform_stock_out_base w item_id qty_base ref meta fresh now).1.isOk = true := by
  unfold perform_stock_out_base
  by_cases hq : qty_base ≤ 0
  · rw [if_pos hq]
    left
    rfl
  · rw [if_neg hq]
    dsimp only
    by_cases hcond : ((if meta.reason == "" then "sold" else meta.reason) == "sold" &&
        meta.record_cash_event) = true
    · rw [if_pos hcond]
      cases hfind : w.items.find? (fun i => i.id == item_id) with
      | none =>
        left
        rfl
      | some it =>
        dsimp only
        by_cases hdim : (lowerString it.dimension != "count") = true
        · rw [if_pos hdim]
          left
          rfl
        · rw [if_neg hdim]
          exact withTransaction_world w _
    · rw [if_neg hcond]
      cases hcons : fifo_consume w item_id qty_base
          (if meta.reason == "" then "sold" else meta.reason) ref now with
      | error s =>
        left
        rfl
      | ok pr =>
        obtain ⟨w1, mv⟩ := pr
        right
        rfl

/-- C4: the sale path (1) rejects items whose dimension is not "count" before
any write (`sold_cash_event_count_only`, world unchanged); (2) on success
appends exactly one `CashEvent(kind="sale")` whose `source_id` is the
generated correlation id (`ref or uuid4`), with every FIFO consumption
movement of the same call carrying that same correlation id; (3) every error
outcome leaves the world exactly as before the call; and (4) forcing an
exception between the FIFO consumption and the cash-event insert rolls the
shared transaction back to the pre-call world, so movement counts and every
batch's `qty_remaining` are exactly as before. -/
theorem sale_txn_shares_correlation_id :
    (∀ (w : World) (item_id : Nat) (qty_base : Int) (ref : Option String)
        (meta : StockOutMeta) (fresh : String) (now : Nat) (it : Item),
      w.items.find? (fun i => i.id == item_id) = some it →
      (if meta.reason == "" then "sold" else meta.reason) = "sold" →
      meta.record_cash_event = true →
      lowerString it.dimension ≠ "count" →
      0 < qty_base →
      perform_stock_out_base w item_id qty_base ref meta fresh now =
        (.error .sold_cash_event_count_only, w)) ∧
    (∀ (w : World) (item_id : Nat) (qty_base : Int) (ref : Option String)
        (meta : StockOutMeta) (fresh : String) (now : Nat)
        (moves : List ItemMovement) (w1 : World),
      (if meta.reason == "" then "sold" else meta.reason) = "sold" →
      meta.record_cash_event = true →
      perform_stock_out_base w item_id qty_base ref meta fresh now =
        (.ok moves, w1) →
      ∃ it, w.items.find? (fun i => i.id == item_id) = some it ∧
        w1.cash_events = w.cash_events ++
          [⟨"sale", none, rhuDiv (salePriceCents meta it * qty_base) 1000,
            some item_id, some qty_base, some (salePriceCents meta it), "sold",
            some (orFresh ref fresh), none, meta.note, now⟩] ∧
        w1.movements = w.movements ++ moves ∧
        ∀ m ∈ moves, m.source_id = some (orFresh ref fresh) ∧
          m.qty_change < 0 ∧ m.source_kind = "sold") ∧
    (∀ (w : World) (item_id : Nat) (qty_base : Int) (ref : Option String)
        (meta : StockOutMeta) (fresh : String) (now : Nat) (e : StockOutError),
      (perform_stock_out_base w item_id qty_base ref meta fresh now).1 = .error e →
      (perform_stock_out_base w item_id qty_base ref meta fresh now).2 = w) ∧
    (∀ (w : World) (item_id : Nat) (qty_base : Int) (ref : Option String)
        (meta : StockOutMeta) (fresh : String) (now : Nat) (it : Item)
        (w1 : World) (moves : List ItemMovement),
      w.items.find? (fun i => i.id == item_id) = some it →
      (if meta.reason == "" then "sold" else meta.reason) = "sold" →
      meta.record_cash_event = true →
      lowerString it.dimension = "count" →
      0 < qty_base →
      fifo_consume w item_id qty_base "sold" (some (orFresh ref fresh)) now =
        .ok (w1, moves) →
      perform_stock_out_base_failing w item_id qty_base ref meta fresh now =
        (.error .injected, w)) := by
  refine ⟨?_, ?_, ?_, ?_⟩
  · intro w item_id qty_base ref meta fresh now it hfind hreason hrce hdim hq
    have hdimb : (lowerString it.dimension != "count") = true := by
      simpa using hdim
    unfold perform_stock_out_base
    rw [if_neg (not_le.mpr hq)]
    have hcond : ((if meta.reason == "" then "sold" else meta.reason) == "sold"
        && meta.record_cash_event) = true := by
      rw [hreason, hrce]
      rfl
    simp only [hcond, if_true, hfind, hdimb]
  · intro w item_id qty_base ref meta fresh now moves w1 hreason hrce hok
    unfold perform_stock_out_base at hok
    by_cases hq : qty_base ≤ 0
    · rw [if_pos hq] at hok
      cases hok
    · rw [if_neg hq] at hok
      have hcond : ((if meta.reason == "" then "sold" else meta.reason) == "sold"
          && meta.record_cash_event) = true := by
        rw [hreason, hrce]
        rfl
      rw [if_pos hcond] at hok
      cases hfind : w.items.find? (fun i => i.id == item_id) with
      | none =>
        rw [hfind] at hok
        cases hok
      | some it =>
        simp only [hfind] at hok
        by_cases hdim : (lowerString it.dimension != "count") = true
        · rw [if_pos hdim] at hok
          cases hok
        · rw [if_neg hdim] at hok
          rw [hreason, withTransaction] at hok
          cases hbody : saleTxnBody item_id qty_base "sold" (orFresh ref fresh)
              (rhuDiv (salePriceCents meta it * qty_base) 1000)
              (salePriceCents meta it) meta.note now w with
          | error e =>
            rw [hbody] at hok
            cases hok
          | ok pr =>
            obtain ⟨w2, mvs⟩ := pr
            rw [hbody] at hok
            simp only at hok
            injection hok with hok1 hok2
            injection hok1 with hok1
            subst hok1
            subst hok2
            unfold saleTxnBody at hbody
            cases hcons : fifo_consume w item_id qty_base "sold"
                (some (orFresh ref fresh)) now with
            | error sErr =>
              rw [hcons] at hbody
              cases hbody
            | ok pr2 =>
              obtain ⟨wc, mvsc⟩ := pr2
              simp only [hcons] at hbody
              injection hbody with hbody
              injection hbody with hbw hbm
              subst hbm
              subst hbw
              obtain ⟨hcash, -, -, hmoves, -, hprops⟩ :=
                fifo_consume_ok _ _ _ _ _ _ _ _ hcons
              refine ⟨it, rfl, ?_, ?_, ?_⟩
              · show wc.cash_events ++ [_] = w.cash_events ++ [_]
                rw [hcash]
              · show wc.movements = w.movements ++ _
                exact hmoves
              · intro m hm
                obtain ⟨h1, h2, h3, -⟩ := hprops m hm
                exact ⟨h2, h3, h1⟩
  · intro w item_id qty_base ref meta fresh now e herr
    rcases stock_out_error_leaves_world w item_id qty_base ref meta fresh now with
      hw | hok
    · exact hw
    · rw [herr] at hok
      cases hok
  · intro w item_id qty_base ref meta fresh now it w1 moves hfind hreason hrce hdim hq hcons
    have hdimb : (lowerString it.dimension != "count") = false := by
      simp [hdim]
    unfold perform_stock_out_base_failing
    rw [if_neg (not_le.mpr hq)]
    have hcond : ((if meta.reason == "" then "sold" else meta.reason) == "sold"
        && meta.record_cash_event) = true := by
      rw [hreason, hrce]
      rfl
    simp only [hcond, if_true, hfind, hdimb, Bool.false_eq_true, if_false]
    refine withTransaction_of_body_error w _ _ ?_
    rw [hreason, hcons]

/-- Weight-dimension item world for the count-only sale guard. -/
def c4WeightWorld : World :=
  ⟨[⟨1, "Flour", "weight", some "g", 0, 0⟩], [], [], [], [], 1, 1⟩

/-- Count item with one 3000-base batch at 7¢, about to sell 2000 base. -/
def c4CountWorld : World :=
  ⟨[⟨1, "Widget", "count", some "ea", 0, 3000⟩],
    [⟨1, 1, 3000, 3000, 7, "purchase", none, 1⟩], [], [], [], 2, 1⟩

def c4SaleMeta : StockOutMeta := ⟨"sold", true, some 500, none⟩

def c4SaleMoves : List ItemMovement := [⟨1, some 1, -2000, 7, "sold", some "u1", 4⟩]

/-- The state inside the sale transaction after FIFO consumption only (no
cash event yet): what the forced-failure probe rolls back. -/
def c4ConsumedWorld : World :=
  ⟨[⟨1, "Widget", "count", some "ea", 0, 3000⟩],
    [⟨1, 1, 3000, 1000, 7, "purchase", none, 1⟩], c4SaleMoves, [], [], 2, 1⟩

/-- The committed world after the sale: batch decremented, one negative
movement and one sale cash event sharing the correlation id "u1". -/
def c4SaleWorld : World :=
  ⟨[⟨1, "Widget", "count", some "ea", 0, 3000⟩],
    [⟨1, 1, 3000, 1000, 7, "purchase", none, 1⟩], c4SaleMoves,
    [⟨"sale", none, 1000, some 1, some 2000, some 500, "sold", some "u1", none, none, 4⟩],
    [], 2, 1⟩

/-- Witness for C4: selling a weight item is rejected with the world
unchanged; a count sale commits the consumption movement and the sale cash
event under one correlation id; an error outcome leaves the world as before;
and the forced failure between consumption and cash insert rolls back to the
pre-call world. -/
theorem sale_txn_shares_correlation_id_witness :
    perform_stock_out_base c4WeightWorld 1 1000 none ⟨"sold", true, some 100, none⟩
        "u1" 4 = (.error .sold_cash_event_count_only, c4WeightWorld) ∧
    (∃ it, c4CountWorld.items.find? (fun i => i.id == 1) = some it ∧
      c4SaleWorld.cash_events = c4CountWorld.cash_events ++
        [⟨"sale", none, rhuDiv (salePriceCents c4SaleMeta it * 2000) 1000,
          some 1, some 2000, some (salePriceCents c4SaleMeta it), "sold",
          some (orFresh none "u1"), none, c4SaleMeta.note, 4⟩] ∧
      c4SaleWorld.movements = c4CountWorld.movements ++ c4SaleMoves ∧
      ∀ m ∈ c4SaleMoves, m.source_id = some (orFresh none "u1") ∧
        m.qty_change < 0 ∧ m.source_kind = "sold") ∧
    (perform_stock_out_base c4WeightWorld 1 1000 none ⟨"sold", true, some 100, none⟩
        "u1" 4).2 = c4WeightWorld ∧
    perform_stock_out_base_failing c4CountWorld 1 2000 none c4SaleMeta "u1" 4 =
      (.error .injected, c4CountWorld) := by
  refine ⟨?_, ?_, ?_, ?_⟩
  · exact sale_txn_shares_correlation_id.1 c4WeightWorld 1 1000 none
      ⟨"sold", true, some 100, none⟩ "u1" 4 ⟨1, "Flour", "weight", some "g", 0, 0⟩
      (by decide) (by decide) (by decide) (by decide) (by decide)
  · exact sale_txn_shares_correlation_id.2.1 c4CountWorld 1 2000 none c4SaleMeta
      "u1" 4 c4SaleMoves c4SaleWorld (by decide) (by decide) (by decide)
  · exact sale_txn_shares_correlation_id.2.2.1 c4WeightWorld 1 1000 none
      ⟨"sold", true, some 100, none⟩ "u1" 4 .sold_cash_event_count_only (by decide)
  · exact sale_txn_shares_correlation_id.2.2.2 c4CountWorld 1 2000 none c4SaleMeta
      "u1" 4 ⟨1, "Widget", "count", some "ea", 0, 3000⟩ c4ConsumedWorld c4SaleMoves
      (by decide) (by decide) (by decide) (by decide) (by decide) (by decide)

/-! ## Claim C5: refund restock cost -/

theorem intCast_map_sum (f : ItemMovement → Int) (l : List ItemMovement) :
    (((l.map f).sum : Int) : ℚ) = (l.map (fun m => ((f m : Int) : ℚ))).sum := by
  induction l with
  | nil => simp
  | cons a t ih => simp [ih]

/-- The integer weighted-average form equals the source's
`round_half_up(Σ(qty*cost) / Σqty)` formula over the related rows. -/
theorem weightedAvgUnitCost_eq (rows : List ItemMovement) (hne : rows ≠ [])
    (hneg : ∀ m ∈ rows, m.qty_change < 0) :
    weightedAvgUnitCost rows = round_half_up_cents
      ((rows.map (fun m => ((|m.qty_change| : Int) : ℚ) * ((m.unit_cost_cents : Int) : ℚ))).sum /
        (rows.map (fun m => ((|m.qty_change| : Int) : ℚ))).sum) := by
  have hpos : 0 < ((rows.map (fun m => |m.qty_change|)).sum : Int) := by
    refine List.sum_pos _ ?_ ?_
    · intro x hx
      obtain ⟨m, hm, rfl⟩ := List.mem_map.mp hx
      exact abs_pos.mpr (ne_of_lt (hneg m hm))
    · simpa using hne
  have hfun : (fun m : ItemMovement => ((|m.qty_change| * m.unit_cost_cents : Int) : ℚ)) =
      fun m : ItemMovement =>
        ((|m.qty_change| : Int) : ℚ) * ((m.unit_cost_cents : Int) : ℚ) := by
    funext m
    push_cast
    ring
  rw [weightedAvgUnitCost, rhuDiv_eq _ _ hpos, intCast_map_sum, intCast_map_sum, hfun]

/-- C5: for a refund with restock, (a) when `related_source_id` is given the
appended restock batch's unit cost is the quantity-weighted average
`round_half_up(Σ(qty*cost) / Σqty)` over the negative movements recorded
under the original sale's correlation id for this item (and those rows exist
and are all negative); (b) with no `related_source_id`, omitting the explicit
restock cost is rejected before the transaction opens, leaving the world
unchanged. -/
theorem refund_restock_weighted_average_cost :
    (∀ (w : World) (body : RefundIn) (fresh : String) (now : Nat)
        (rsid sid : String) (w1 : World),
      body.restock_inventory = true →
      truthy body.related_source_id = some rsid →
      finance_refund w body fresh now = (.ok sid, w1) →
      refundRelatedRows w.movements body.item_id rsid ≠ [] ∧
      (∀ m ∈ refundRelatedRows w.movements body.item_id rsid,
        m.qty_change < 0 ∧ m.source_id = some rsid) ∧
      weightedAvgUnitCost (refundRelatedRows w.movements body.item_id rsid) =
        round_half_up_cents
          (((refundRelatedRows w.movements body.item_id rsid).map
              (fun m => ((|m.qty_change| : Int) : ℚ) * ((m.unit_cost_cents : Int) : ℚ))).sum /
            ((refundRelatedRows w.movements body.item_id rsid).map
              (fun m => ((|m.qty_change| : Int) : ℚ))).sum) ∧
      sid = fresh ∧
      ∃ qty_base, 0 < qty_base ∧
        w1.batches = w.batches ++
          [⟨w.next_batch_id, body.item_id, qty_base, qty_base,
            weightedAvgUnitCost (refundRelatedRows w.movements body.item_id rsid),
            "refund_restock", some fresh, now⟩]) ∧
    (∀ (w : World) (body : RefundIn) (fresh : String) (now : Nat),
      body.restock_inventory = true →
      truthy body.related_source_id = none →
      body.restock_unit_cost_cents = none →
      finance_refund w body fresh now =
        (.error .restock_unit_cost_required_without_related_source_id, w)) := by
  constructor
  · intro w body fresh now rsid sid w1 hrestock hrel hok
    have hrowprops : ∀ m ∈ refundRelatedRows w.movements body.item_id rsid,
        m.qty_change < 0 ∧ m.source_id = some rsid := by
      intro m hm
      rw [refundRelatedRows, List.mem_filter] at hm
      obtain ⟨-, hp⟩ := hm
      simp only [Bool.and_eq_true, beq_iff_eq, decide_eq_true_eq] at hp
      exact ⟨hp.2, hp.1.2⟩
    unfold finance_refund at hok
    by_cases hguard : (body.restock_inventory && (truthy body.related_source_id).isNone
        && body.restock_unit_cost_cents.isNone) = true
    · rw [if_pos hguard] at hok
      cases hok
    · rw [if_neg hguard, withTransaction] at hok
      cases hbody : refundTxnBody body fresh now w with
      | error e =>
        rw [hbody] at hok
        cases hok
      | ok pr =>
        obtain ⟨w2, sid2⟩ := pr
        rw [hbody] at hok
        simp only at hok
        injection hok with hok1 hok2
        injection hok1 with hok1
        subst hok1
        subst hok2
        unfold refundTxnBody at hbody
        cases hfind : w.items.find? (fun it => it.id == body.item_id) with
        | none =>
          rw [hfind] at hbody
          cases hbody
        | some item =>
          simp only [hfind] at hbody
          cases hnorm : normalize_quantity_to_base_int item.dimension body.uom
              body.quantity_decimal with
          | error e =>
            try simp only [hnorm] at hbody
            cases hbody
          | ok qty_base =>
            try simp only [hnorm] at hbody
            by_cases hq : qty_base ≤ 0
            · rw [if_pos hq] at hbody
              cases hbody
            · rw [if_neg hq] at hbody
              rw [hrestock] at hbody
              simp only [if_true, hrel] at hbody
              try dsimp only at hbody
              by_cases hrows : (refundRelatedRows
                  w.movements body.item_id rsid).isEmpty = true
              · simp only [hrows] at hbody
                cases hbody
              · have hrowsf : (refundRelatedRows
                    w.movements body.item_id rsid).isEmpty = false := by
                  simpa using hrows
                simp only [hrowsf] at hbody
                by_cases hzq : (((refundRelatedRows w.movements body.item_id rsid).map
                    (fun m => (|m.qty_change| : Int))).sum == 0) = true
                · simp only [hzq] at hbody
                  cases hbody
                · have hzqf : (((refundRelatedRows w.movements body.item_id rsid).map
                      (fun m => (|m.qty_change| : Int))).sum == 0) = false := by
                    simpa using hzq
                  simp only [hzqf, Bool.false_eq_true, if_false] at hbody
                  injection hbody with hbody
                  injection hbody with hbw hbs
                  have hne : refundRelatedRows w.movements body.item_id rsid ≠ [] := by
                    intro hcon
                    rw [hcon] at hrowsf
                    cases hrowsf
                  refine ⟨hne, hrowprops,
                    weightedAvgUnitCost_eq _ hne (fun m hm => (hrowprops m hm).1),
                    hbs.symm, qty_base, lt_of_not_le hq, ?_⟩
                  rw [← hbw]
                  rfl
  · intro w body fresh now hrestock hrel hcost
    unfold finance_refund
    rw [if_pos]
    rw [hrestock, hrel, hcost]
    rfl

/-- Refund scenario world: the original sale "sale1" consumed 2 ea @ 10¢ and
1 ea @ 20¢ (movements -2000 and -1000 base). -/
def c5World : World :=
  ⟨[⟨1, "Widget", "count", some "ea", 0, 0⟩], [],
    [⟨1, some 1, -2000, 10, "sold", some "sale1", 1⟩,
     ⟨1, some 2, -1000, 20, "sold", some "sale1", 1⟩],
    [], [], 5, 1⟩

/-- Refund of 1 ea for 100¢ with restock against the original sale. -/
def c5Body : RefundIn :=
  ⟨1, 100, "1", "ea", true, some "sale1", none, none, none, none⟩

/-- World after the refund: refund cash event plus a restocked batch of 1000
base units at the weighted-average cost 13¢. -/
def c5After : World :=
  ⟨[⟨1, "Widget", "count", some "ea", 0, 1000⟩],
    [⟨5, 1, 1000, 1000, 13, "refund_restock", some "r1", 9⟩],
    [⟨1, some 1, -2000, 10, "sold", some "sale1", 1⟩,
     ⟨1, some 2, -1000, 20, "sold", some "sale1", 1⟩,
     ⟨1, some 5, 1000, 13, "refund_restock", some "r1", 9⟩],
    [⟨"refund", none, -100, some 1, some 1000, none, "refund", some "r1",
      some "sale1", none, 9⟩],
    [], 6, 1⟩

/-- Witness for C5: the spec §8 refund scenario — weighted average
(2000*10 + 1000*20) / 3000 = 13.33 rounds half-up to 13¢ on the restocked
batch, and omitting the explicit cost without a related sale is rejected with
the world unchanged. -/
theorem refund_restock_weighted_average_cost_witness :
    finance_refund c5World c5Body "r1" 9 = (.ok "r1", c5After) ∧
    weightedAvgUnitCost (refundRelatedRows c5World.movements 1 "sale1") = 13 ∧
    (∃ qty_base, 0 < qty_base ∧
      c5After.batches = c5World.batches ++
        [⟨c5World.next_batch_id, c5Body.item_id, qty_base, qty_base,
          weightedAvgUnitCost (refundRelatedRows c5World.movements c5Body.item_id "sale1"),
          "refund_restock", some "r1", 9⟩]) ∧
    finance_refund c5World { c5Body with related_source_id := none } "r1" 9 =
      (.error .restock_unit_cost_required_without_related_source_id, c5World) := by
  have h := refund_restock_weighted_average_cost.1 c5World c5Body "r1" 9 "sale1" "r1"
    c5After (by decide) (by decide) (by decide)
  exact ⟨by decide, by decide, h.2.2.2.2,
    refund_restock_weighted_average_cost.2 c5World
      { c5Body with related_source_id := none } "r1" 9
      (by decide) (by decide) (by decide)⟩

/-! ## Claim C8: COGS counts only sale-linked negative movements -/

/-- The spec's wording of the window COGS (§4.4): the sum over exactly the
negative movements whose `source_id` matches an in-window sale's `source_id`,
each movement contributing once.  Refinement target for `summaryCogs`. -/
def specWindowCogs (w : World) (fromDt toDt : Nat) : Int :=
  (w.movements.map (fun m =>
    if decide (m.qty_change < 0) &&
        w.cash_events.any (fun e => saleInWindow e fromDt toDt && sidMatch m e) then
      |m.qty_change| * m.unit_cost_cents
    else 0)).sum

theorem countP_source_id_le_one (l : List CashEvent)
    (h : (l.filterMap (fun e => e.source_id)).Nodup) (s : String) :
    l.countP (fun e => e.source_id == some s) ≤ 1 := by
  induction l with
  | nil =>
    rw [List.countP_nil]
    exact Nat.zero_le 1
  | cons e t ih =>
    rw [List.countP_cons]
    cases hes : e.source_id with
    | none =>
      simp only [List.filterMap_cons, hes] at h
      simpa [show ((none : Option String) == some s) = false from rfl] using ih h
    | some sv =>
      simp only [List.filterMap_cons, hes] at h
      rw [List.nodup_cons] at h
      obtain ⟨hnotin, ht⟩ := h
      by_cases hsv : sv = s
      · subst hsv
        have hzero : t.countP (fun e2 => e2.source_id == some sv) = 0 := by
          rw [List.countP_eq_zero]
          intro e2 he2 hp
          refine hnotin (List.mem_filterMap.mpr ⟨e2, he2, ?_⟩)
          simpa using hp
        rw [hzero]
        simp
      · have hf : ((some sv : Option String) == some s) = false := by
          simp [hsv]
        rw [hf]
        simpa using ih ht

theorem summaryCogs_inner (w : World) (lo hi : Nat)
    (hnodup : ((w.cash_events.filter (fun e => saleInWindow e lo hi)).filterMap
      (fun e => e.source_id)).Nodup) (m : ItemMovement) :
    (if m.qty_change < 0 then
      ((w.cash_events.filter (fun e => saleInWindow e lo hi && sidMatch m e)).map
        (fun _ => |m.qty_change| * m.unit_cost_cents)).sum
    else 0) =
    (if decide (m.qty_change < 0) &&
        w.cash_events.any (fun e => saleInWindow e lo hi && sidMatch m e) then
      |m.qty_change| * m.unit_cost_cents
    else 0) := by
  by_cases hq : m.qty_change < 0
  · rw [if_pos hq, decide_eq_true hq, Bool.true_and]
    cases hL : w.cash_events.filter (fun e => saleInWindow e lo hi && sidMatch m e) with
    | nil =>
      have hany : w.cash_events.any (fun e => saleInWindow e lo hi && sidMatch m e) = false := by
        rw [Bool.eq_false_iff]
        intro hcon
        obtain ⟨x, hx, hp⟩ := List.any_eq_true.mp hcon
        have hmem : x ∈ w.cash_events.filter (fun e => saleInWindow e lo hi && sidMatch m e) :=
          List.mem_filter.mpr ⟨hx, hp⟩
        rw [hL] at hmem
        cases hmem
      rw [hany]
      simp
    | cons e1 rest =>
      have he1 : e1 ∈ w.cash_events.filter (fun e => saleInWindow e lo hi && sidMatch m e) := by
        rw [hL]
        exact List.mem_cons_self e1 rest
      obtain ⟨he1mem, he1p⟩ := List.mem_filter.mp he1
      have hany : w.cash_events.any (fun e => saleInWindow e lo hi && sidMatch m e) = true :=
        List.any_eq_true.mpr ⟨e1, he1mem, he1p⟩
      have hsid1 : sidMatch m e1 = true := Bool.and_elim_right he1p
      have hms : ∃ s, m.source_id = some s := by
        cases hm : m.source_id with
        | some s => exact ⟨s, rfl⟩
        | none =>
          exfalso
          unfold sidMatch at hsid1
          rw [hm] at hsid1
          cases he2 : e1.source_id <;> rw [he2] at hsid1 <;> simp at hsid1
      obtain ⟨s, hm⟩ := hms
      have hsidchar : ∀ e : CashEvent, sidMatch m e = (e.source_id == some s) := by
        intro e
        unfold sidMatch
        rw [hm]
        cases he2 : e.source_id with
        | none => rfl
        | some bb =>
          show (s == bb) = ((some bb : Option String) == some s)
          by_cases hbs : bb = s
          · subst hbs
            simp
          · have h1 : (s == bb) = false := by simp [Ne.symm hbs]
            have h2 : ((some bb : Option String) == some s) = false := by simp [hbs]
            rw [h1, h2]
      have hcount : (w.cash_events.filter
          (fun e => saleInWindow e lo hi && sidMatch m e)).length ≤ 1 := by
        rw [← List.countP_eq_length_filter]
        have h1 : List.countP (fun e => saleInWindow e lo hi && sidMatch m e) w.cash_events
            = List.countP (fun e => (e.source_id == some s) && saleInWindow e lo hi)
              w.cash_events := by
          refine List.countP_congr ?_
          intro e _
          rw [hsidchar e, Bool.and_comm]
        rw [h1]
        calc List.countP (fun e => (e.source_id == some s) && saleInWindow e lo hi) w.cash_events
            = List.countP (fun e => e.source_id == some s)
              (w.cash_events.filter (fun e => saleInWindow e lo hi)) :=
              (List.countP_filter (fun e => e.source_id == some s)
                (fun e => saleInWindow e lo hi) w.cash_events).symm
          _ ≤ 1 := countP_source_id_le_one _ hnodup s
      rw [hL] at hcount
      cases rest with
      | nil => simp [hany]
      | cons e2 r2 =>
        exfalso
        simp at hcount
  · simp [hq]

/-- C8 (amended): provided the in-window sale events carry pairwise-distinct
correlation ids, the `FinanceSummary` COGS join equals the spec's sum over
exactly the negative movements whose `source_id` matches an in-window sale's
`source_id`, each movement counted exactly once — positive (refund-restock)
movements and movements matching no in-window sale contribute nothing. -/
theorem cogs_single_count_per_sale_sid (w : World) (fromDt toDt : Nat)
    (hnodup : ((w.cash_events.filter (fun e => saleInWindow e fromDt toDt)).filterMap
      (fun e => e.source_id)).Nodup) :
    summaryCogs w fromDt toDt = specWindowCogs w fromDt toDt := by
  unfold summaryCogs specWindowCogs
  refine congrArg List.sum (List.map_congr_left ?_)
  intro m _
  exact summaryCogs_inner w fromDt toDt hnodup m

/-- Counterexample for C8 as frozen: with two in-window sale `CashEvent`s
sharing the correlation id "s", the `get_finance_summary` join counts the
single matching negative movement twice (COGS 10), not once (5) — the claim's
"the same movement is never counted twice" fails on the code. -/
theorem cogs_join_double_count_counterexample :
    summaryCogs
        ⟨[], [], [⟨1, some 1, -1, 5, "sold", some "s", 3⟩],
          [⟨"sale", none, 7, some 1, some 1, some 7, "sold", some "s", none, none, 3⟩,
           ⟨"sale", none, 7, some 1, some 1, some 7, "sold", some "s", none, none, 4⟩],
          [], 1, 1⟩ 0 10 = 10 ∧
    specWindowCogs
        ⟨[], [], [⟨1, some 1, -1, 5, "sold", some "s", 3⟩],
          [⟨"sale", none, 7, some 1, some 1, some 7, "sold", some "s", none, none, 3⟩,
           ⟨"sale", none, 7, some 1, some 1, some 7, "sold", some "s", none, none, 4⟩],
          [], 1, 1⟩ 0 10 = 5 ∧
    (10 : Int) ≠ 5 := by
  refine ⟨by decide, by decide, by decide⟩

/-- Sale/refund world with distinct sale correlation ids: one in-window sale
"s1" whose consumption was -2 base @ 5¢, one positive refund-restock
movement, and one negative movement under an unrelated source id. -/
def c8GoodWorld : World :=
  ⟨[], [],
    [⟨1, some 1, -2, 5, "sold", some "s1", 3⟩,
     ⟨1, some 2, 1, 5, "refund_restock", some "r1", 4⟩,
     ⟨1, some 1, -3, 9, "shrink", some "x1", 4⟩],
    [⟨"sale", none, 10, some 1, some 2, some 5, "sold", some "s1", none, none, 3⟩,
     ⟨"refund", none, -10, some 1, some 2, none, "refund", some "r1", some "s1", none, 4⟩],
    [], 1, 1⟩

/-- Witness for C8 (amended): with distinct in-window sale ids the join and
the spec sum agree, the refund-linked positive movement and the unrelated
negative movement contribute nothing, and COGS is exactly 2 × 5¢. -/
theorem cogs_single_count_per_sale_sid_witness :
    ((c8GoodWorld.cash_events.filter (fun e => saleInWindow e 0 10)).filterMap
      (fun e => e.source_id)).Nodup ∧
    summaryCogs c8GoodWorld 0 10 = specWindowCogs c8GoodWorld 0 10 ∧
    summaryCogs c8GoodWorld 0 10 = 10 := by
  exact ⟨by decide, cogs_single_count_per_sale_sid c8GoodWorld 0 10 (by decide), by decide⟩

/-! ## Claim C9: margin formula and divide-by-zero guard -/

/-- C9: for every window, `margin_percent` is exactly 0 when net revenue is
zero (a guard, not an error), and otherwise equals the two-decimal half-up
quantization of `gross_profit / net_revenue * 100`. -/
theorem margin_percent_guard_and_formula (w : World) (fromDt toDt : Nat) :
    ((get_finance_summary w fromDt toDt).net_revenue_cents = 0 →
      (get_finance_summary w fromDt toDt).margin_percent = 0) ∧
    ((get_finance_summary w fromDt toDt).net_revenue_cents ≠ 0 →
      (get_finance_summary w fromDt toDt).margin_percent =
        quantize2_half_up
          (((get_finance_summary w fromDt toDt).gross_profit_cents : ℚ) /
            ((get_finance_summary w fromDt toDt).net_revenue_cents : ℚ) * 100)) := by
  unfold get_finance_summary
  dsimp only
  constructor
  · intro h
    rw [if_pos h]
  · intro h
    rw [if_neg h]

/-- A 500¢ sale fully refunded (no restock) in the window. -/
def c9ZeroWorld : World :=
  ⟨[], [], [],
    [⟨"sale", none, 500, some 1, some 1000, some 500, "sold", some "s1", none, none, 3⟩,
     ⟨"refund", some "refund", -500, none, none, none, "refund", some "r1", some "s1", none, 4⟩],
    [], 1, 1⟩

/-- A lone 500¢ sale in the window (positive net revenue). -/
def c9PosWorld : World :=
  ⟨[], [], [],
    [⟨"sale", none, 500, some 1, some 1000, some 500, "sold", some "s1", none, none, 3⟩],
    [], 1, 1⟩

/-- Witness for C9: the §8 scenario — a 500¢ sale fully refunded gives
`net_revenue_cents = 0` and `margin_percent = 0` (not an error), while a
nonzero-net window takes the quantized formula branch. -/
theorem margin_percent_guard_and_formula_witness :
    (get_finance_summary c9ZeroWorld 0 10).net_revenue_cents = 0 ∧
    (get_finance_summary c9ZeroWorld 0 10).margin_percent = 0 ∧
    (get_finance_summary c9PosWorld 0 10).net_revenue_cents ≠ 0 ∧
    (get_finance_summary c9PosWorld 0 10).margin_percent =
      quantize2_half_up
        (((get_finance_summary c9PosWorld 0 10).gross_profit_cents : ℚ) /
          ((get_finance_summary c9PosWorld 0 10).net_revenue_cents : ℚ) * 100) :=
  ⟨by decide, (margin_percent_guard_and_formula c9ZeroWorld 0 10).1 (by decide),
   by decide, (margin_percent_guard_and_formula c9PosWorld 0 10).2 (by decide)⟩

/-! ## Claim C10: refunds reported as a nonnegative magnitude -/

theorem list_sum_nonpos (l : List Int) (h : ∀ x ∈ l, x ≤ 0) : l.sum ≤ 0 := by
  induction l with
  | nil => simp
  | cons a t ih =>
    rw [List.sum_cons]
    have ha := h a (List.mem_cons_self a t)
    have ht := ih (fun x hx => h x (List.mem_cons_of_mem a hx))
    linarith

/-- C10 (implicit): `get_finance_summary` reports `refunds_cents` as the
nonnegative magnitude `|Σ refund amounts in window|` and computes
`net = gross - refunds`; whenever every in-window refund event stores a
non-positive amount this equals gross plus the signed refund sum — and the
refund write path `finance_refund` indeed always appends its single refund
`CashEvent` with `amount_cents = -|refund_amount_cents| ≤ 0`. -/
theorem refunds_reported_as_magnitude :
    (∀ (w : World) (fromDt toDt : Nat),
      (get_finance_summary w fromDt toDt).refunds_cents =
        |summaryRefundsRaw w fromDt toDt| ∧
      0 ≤ (get_finance_summary w fromDt toDt).refunds_cents ∧
      (get_finance_summary w fromDt toDt).net_revenue_cents =
        (get_finance_summary w fromDt toDt).gross_revenue_cents -
          (get_finance_summary w fromDt toDt).refunds_cents ∧
      ((∀ e ∈ w.cash_events, refundInWindow e fromDt toDt = true → e.amount_cents ≤ 0) →
        (get_finance_summary w fromDt toDt).net_revenue_cents =
          (get_finance_summary w fromDt toDt).gross_revenue_cents +
            summaryRefundsRaw w fromDt toDt)) ∧
    (∀ (w : World) (body : RefundIn) (fresh : String) (now : Nat) (sid : String) (w1 : World),
      finance_refund w body fresh now = (.ok sid, w1) →
      ∃ ce : CashEvent, w1.cash_events = w.cash_events ++ [ce] ∧
        ce.kind = "refund" ∧ ce.amount_cents = -(|body.refund_amount_cents|) ∧
        ce.amount_cents ≤ 0) := by
  constructor
  · intro w fromDt toDt
    refine ⟨rfl, abs_nonneg _, rfl, ?_⟩
    intro hneg
    have hraw : summaryRefundsRaw w fromDt toDt ≤ 0 := by
      refine list_sum_nonpos _ ?_
      intro x hx
      obtain ⟨e, he, rfl⟩ := List.mem_map.mp hx
      obtain ⟨hemem, hep⟩ := List.mem_filter.mp he
      exact hneg e hemem hep
    have habs : |summaryRefundsRaw w fromDt toDt| = -summaryRefundsRaw w fromDt toDt :=
      abs_of_nonpos hraw
    show summaryGross w fromDt toDt - |summaryRefundsRaw w fromDt toDt| =
      summaryGross w fromDt toDt + summaryRefundsRaw w fromDt toDt
    rw [habs]
    ring
  · intro w body fresh now sid w1 hok
    unfold finance_refund at hok
    by_cases hguard : (body.restock_inventory && (truthy body.related_source_id).isNone
        && body.restock_unit_cost_cents.isNone) = true
    · rw [if_pos hguard] at hok
      cases hok
    · rw [if_neg hguard, withTransaction] at hok
      cases hbody : refundTxnBody body fresh now w with
      | error e =>
        rw [hbody] at hok
        cases hok
      | ok pr =>
        obtain ⟨w2, sid2⟩ := pr
        rw [hbody] at hok
        simp only at hok
        injection hok with hok1 hok2
        injection hok1 with hok1
        subst hok1
        subst hok2
        unfold refundTxnBody at hbody
        cases hfind : w.items.find? (fun it => it.id == body.item_id) with
        | none =>
          rw [hfind] at hbody
          cases hbody
        | some item =>
          simp only [hfind] at hbody
          cases hnorm : normalize_quantity_to_base_int item.dimension body.uom
              body.quantity_decimal with
          | error e =>
            try simp only [hnorm] at hbody
            cases hbody
          | ok qty_base =>
            try simp only [hnorm] at hbody
            by_cases hq : qty_base ≤ 0
            · rw [if_pos hq] at hbody
              cases hbody
            · rw [if_neg hq] at hbody
              try dsimp only at hbody
              refine ⟨⟨"refund", body.category, -(|body.refund_amount_cents|),
                some body.item_id, some qty_base, none, "refund", some fresh,
                truthy body.related_source_id, body.notes, body.created_at.getD now⟩,
                ?_, rfl, rfl, neg_nonpos.mpr (abs_nonneg _)⟩
              cases hri : body.restock_inventory with
              | false =>
                simp only [hri, Bool.false_eq_true, if_false] at hbody
                injection hbody with hbody
                injection hbody with hbw hbs
                rw [← hbw]
              | true =>
                simp only [hri, if_true] at hbody
                cases htr : truthy body.related_source_id with
                | none =>
                  simp only [htr] at hbody
                  injection hbody with hbody
                  injection hbody with hbw hbs
                  rw [← hbw]
                  rfl
                | some rsid =>
                  simp only [htr] at hbody
                  try dsimp only at hbody
                  by_cases hrows : (refundRelatedRows
                      ({ w with cash_events := w.cash_events ++
                        [⟨"refund", body.category, -(|body.refund_amount_cents|),
                          some body.item_id, some qty_base, none, "refund", some fresh,
                          truthy body.related_source_id, body.notes,
                          body.created_at.getD now⟩] } : World).movements
                      body.item_id rsid).isEmpty = true
                  · simp only [hrows] at hbody
                    cases hbody
                  · have hrowsf := Bool.eq_false_iff.mpr hrows
                    simp only [hrowsf] at hbody
                    by_cases hzq : (((refundRelatedRows
                        ({ w with cash_events := w.cash_events ++
                          [⟨"refund", body.category, -(|body.refund_amount_cents|),
                            some body.item_id, some qty_base, none, "refund", some fresh,
                            truthy body.related_source_id, body.notes,
                            body.created_at.getD now⟩] } : World).movements
                        body.item_id rsid).map
                        (fun m => (|m.qty_change| : Int))).sum == 0) = true
                    · simp only [hzq] at hbody
                      cases hbody
                    · have hzqf := Bool.eq_false_iff.mpr hzq
                      simp only [hzqf, Bool.false_eq_true, if_false] at hbody
                      injection hbody with hbody
                      injection hbody with hbw hbs
                      rw [← hbw]
                      rfl

/-- World holding one in-window sale (700¢) and one in-window refund event
(stored signed, -200¢), plus the stock rows the refund was restocked from. -/
def c10World : World :=
  ⟨[⟨1, "Widget", "count", some "ea", 0, 1000⟩],
    [⟨1, 1, 2000, 0, 10, "purchase", none, 1⟩],
    [⟨1, some 1, -2000, 10, "sold", some "sale1", 2⟩],
    [⟨"sale", none, 700, some 1, some 2000, some 350, "sold", some "sale1", none, none, 2⟩,
     ⟨"refund", none, -200, some 1, some 1000, none, "refund", some "r0", some "sale1",
      none, 3⟩],
    [], 2, 1⟩

/-- Refund of 1 ea for 200¢ with restock against the original sale. -/
def c10Body : RefundIn :=
  ⟨1, 200, "1", "ea", true, some "sale1", none, none, none, none⟩

/-- Witness for C10: the summary reports refunds as the magnitude 200 with
net = 700 - 200 = 500 = gross plus the signed sum -200, and a successful
`finance_refund` call appends exactly one refund `CashEvent` carrying
`amount_cents = -|200| ≤ 0`. -/
theorem refunds_reported_as_magnitude_witness :
    (get_finance_summary c10World 0 10).refunds_cents = 200 ∧
    summaryRefundsRaw c10World 0 10 = -200 ∧
    ((∀ e ∈ c10World.cash_events, refundInWindow e 0 10 = true → e.amount_cents ≤ 0) →
      (get_finance_summary c10World 0 10).net_revenue_cents =
        (get_finance_summary c10World 0 10).gross_revenue_cents +
          summaryRefundsRaw c10World 0 10) ∧
    (∀ sid w1, finance_refund c10World c10Body "r1" 9 = (.ok sid, w1) →
      ∃ ce : CashEvent, w1.cash_events = c10World.cash_events ++ [ce] ∧
        ce.kind = "refund" ∧ ce.amount_cents = -(|c10Body.refund_amount_cents|) ∧
        ce.amount_cents ≤ 0) ∧
    (finance_refund c10World c10Body "r1" 9).1.isOk = true :=
  ⟨by decide, by decide,
    (refunds_reported_as_magnitude.1 c10World 0 10).2.2.2,
    fun sid w1 h => refunds_reported_as_magnitude.2 c10World c10Body "r1" 9 sid w1 h,
    by decide⟩

/-! ## Claim C7: batch invariants across the core operations -/

/-- Creation-time fields of a batch row: primary key and every immutable
column (`qty_initial`, `unit_cost_cents`, provenance, timestamp). -/
def SameCreation (b bOut : ItemBatch) : Prop :=
  bOut.id = b.id ∧ bOut.item_id = b.item_id ∧ bOut.qty_initial = b.qty_initial ∧
  bOut.unit_cost_cents = b.unit_cost_cents ∧ bOut.source_kind = b.source_kind ∧
  bOut.source_id = b.source_id ∧ bOut.created_at = b.created_at

/-- One operation's effect on the batch table: every pre-existing row survives
with all creation-time fields intact, `qty_remaining` not increased, and
`qty_remaining` still nonnegative when it was before. -/
def BatchStep (old new : List ItemBatch) : Prop :=
  ∀ b ∈ old, ∃ bOut ∈ new, SameCreation b bOut ∧
    bOut.qty_remaining ≤ b.qty_remaining ∧
    (0 ≤ b.qty_remaining → 0 ≤ bOut.qty_remaining)

theorem sameCreation_refl (b : ItemBatch) : SameCreation b b :=
  ⟨rfl, rfl, rfl, rfl, rfl, rfl, rfl⟩

theorem sameCreation_trans {a b c : ItemBatch} (h1 : SameCreation a b)
    (h2 : SameCreation b c) : SameCreation a c := by
  obtain ⟨x1, x2, x3, x4, x5, x6, x7⟩ := h1
  obtain ⟨y1, y2, y3, y4, y5, y6, y7⟩ := h2
  exact ⟨y1.trans x1, y2.trans x2, y3.trans x3, y4.trans x4, y5.trans x5,
    y6.trans x6, y7.trans x7⟩

theorem batchStep_refl (l : List ItemBatch) : BatchStep l l :=
  fun b hb => ⟨b, hb, sameCreation_refl b, le_refl _, id⟩

theorem batchStep_append (l t : List ItemBatch) : BatchStep l (l ++ t) :=
  fun b hb => ⟨b, List.mem_append_left t hb, sameCreation_refl b, le_refl _, id⟩

theorem batchStep_trans {l1 l2 l3 : List ItemBatch} (h1 : BatchStep l1 l2)
    (h2 : BatchStep l2 l3) : BatchStep l1 l3 := by
  intro b hb
  obtain ⟨u, hu, hc1, hle1, hn1⟩ := h1 b hb
  obtain ⟨v, hv, hc2, hle2, hn2⟩ := h2 u hu
  exact ⟨v, hv, sameCreation_trans hc1 hc2, le_trans hle2 hle1, fun h => hn2 (hn1 h)⟩

theorem allocatedTo_nonneg {as : List Alloc} (h : ∀ a ∈ as, 0 < a.qty)
    (bid : Nat) : 0 ≤ allocatedTo as bid := by
  unfold allocatedTo
  refine List.sum_nonneg ?_
  intro x hx
  obtain ⟨a, ha, rfl⟩ := List.mem_map.mp hx
  exact le_of_lt (h a (List.mem_of_mem_filter ha))

theorem fifoWalk_allocatedTo_le (item_id : Nat) (l : List ItemBatch) (q : Int) :
    (l.map ItemBatch.id).Nodup →
    ∀ b ∈ l, allocatedTo (fifoWalk item_id l q).1 b.id ≤ max b.qty_remaining 0 := by
  induction l generalizing q with
  | nil =>
    intro _ b hb
    cases hb
  | cons c rest ih =>
    intro hnodup b hb
    have hnotin : c.id ∉ rest.map ItemBatch.id := by
      rw [List.map_cons, List.nodup_cons] at hnodup
      exact hnodup.1
    have hnodup1 : (rest.map ItemBatch.id).Nodup := by
      rw [List.map_cons, List.nodup_cons] at hnodup
      exact hnodup.2
    by_cases hq : q ≤ 0
    · simp only [fifoWalk, if_pos hq]
      rw [allocatedTo_nil]
      exact le_max_right _ _
    · by_cases htake : min c.qty_remaining q ≤ 0
      · simp only [fifoWalk, if_neg hq, if_pos htake]
        rcases List.mem_cons.mp hb with rfl | hbrest
        · have hz : allocatedTo (fifoWalk item_id rest q).1 b.id = 0 := by
            refine allocatedTo_eq_zero ?_
            intro a ha heq
            have hmem := fifoWalk_batch_ids item_id rest q a ha
            rw [heq] at hmem
            exact hnotin hmem
          rw [hz]
          exact le_max_right _ _
        · exact ih q hnodup1 b hbrest
      · simp only [fifoWalk, if_neg hq, if_neg htake]
        rw [allocatedTo_cons]
        rcases List.mem_cons.mp hb with rfl | hbrest
        · have hz : allocatedTo (fifoWalk item_id rest
              (q - min b.qty_remaining q)).1 b.id = 0 := by
            refine allocatedTo_eq_zero ?_
            intro a ha heq
            have hmem := fifoWalk_batch_ids item_id rest (q - min b.qty_remaining q) a ha
            rw [heq] at hmem
            exact hnotin hmem
          rw [if_pos rfl, hz]
          have h1 : min b.qty_remaining q ≤ b.qty_remaining := min_le_left _ _
          have h2 : b.qty_remaining ≤ max b.qty_remaining 0 := le_max_left _ _
          dsimp only
          linarith
        · have hne : ¬ ((⟨item_id, c.id, min c.qty_remaining q,
              c.unit_cost_cents⟩ : Alloc).batch_id = b.id) := by
            dsimp only
            intro heq
            exact hnotin (heq ▸ List.mem_map_of_mem ItemBatch.id hbrest)
          rw [if_neg hne, zero_add]
          exact ih (q - min c.qty_remaining q) hnodup1 b hbrest

theorem mergeById_ids (db upd : List ItemBatch) :
    (mergeById db upd).map ItemBatch.id = db.map ItemBatch.id := by
  unfold mergeById
  rw [List.map_map]
  refine List.map_congr_left ?_
  intro b hb
  cases hf : upd.find? (fun u => u.id == b.id) with
  | none => simp [hf]
  | some u =>
    have hu := List.find?_some hf
    rw [beq_iff_eq] at hu
    simp [hf, hu]

theorem fifo_allocate_ids (db : List ItemBatch) (item_id : Nat) (q : Int) :
    (fifo_allocate db item_id q).2.map ItemBatch.id = db.map ItemBatch.id := by
  unfold fifo_allocate
  by_cases hq : q ≤ 0
  · rw [if_pos hq]
  · rw [if_neg hq]
    dsimp only
    by_cases hav : ((fifoQuery db item_id).map (fun b => b.qty_remaining)).sum < q
    · rw [if_pos hav]
    · rw [if_neg hav]
      exact mergeById_ids db _

theorem fifo_allocate_batchStep (db : List ItemBatch) (item_id : Nat) (q : Int)
    (hnodup : (db.map ItemBatch.id).Nodup) :
    BatchStep db (fifo_allocate db item_id q).2 := by
  unfold fifo_allocate
  by_cases hq : q ≤ 0
  · rw [if_pos hq]
    exact batchStep_refl db
  · rw [if_neg hq]
    dsimp only
    by_cases hav : ((fifoQuery db item_id).map (fun b => b.qty_remaining)).sum < q
    · rw [if_pos hav]
      exact batchStep_refl db
    · rw [if_neg hav]
      intro b hb
      obtain ⟨bOut, hbOut, hdec⟩ := mergeById_decrement db item_id q hnodup b hb
      obtain ⟨h1, h2, h3, h4, h5, h6, h7, h8⟩ := hdec
      have hpos : ∀ a ∈ (fifoWalk item_id (fifoQuery db item_id) q).1, 0 < a.qty := by
        intro a ha
        obtain ⟨c, hc, -, -, -, hq2, -⟩ := fifoWalk_allocs_mem item_id _ q a ha
        exact hq2
      have hge : 0 ≤ allocatedTo (fifoWalk item_id (fifoQuery db item_id) q).1 b.id :=
        allocatedTo_nonneg hpos b.id
      have hle : allocatedTo (fifoWalk item_id (fifoQuery db item_id) q).1 b.id ≤
          max b.qty_remaining 0 := by
        by_cases hmem : b ∈ fifoQuery db item_id
        · exact fifoWalk_allocatedTo_le item_id _ q (fifoQuery_ids_nodup hnodup) b hmem
        · rw [allocatedTo_eq_zero ?_]
          · exact le_max_right _ _
          · intro a ha heq
            obtain ⟨c, hc, hcid, -, -, -, -⟩ := fifoWalk_allocs_mem item_id _ q a ha
            have hcdb : c ∈ db := (mem_fifoQuery.mp hc).1
            have hcb : c = b :=
              List.inj_on_of_nodup_map hnodup hcdb hb (hcid.symm.trans heq)
            exact hmem (hcb ▸ hc)
      refine ⟨bOut, hbOut, ⟨h1, h2, h3, h4, h5, h6, h7⟩, ?_, ?_⟩
      · rw [h8]
        linarith
      · intro hbn
        rw [h8]
        have hmax : max b.qty_remaining 0 = b.qty_remaining := max_eq_left hbn
        linarith

theorem allocLoop_batchStep :
    ∀ (rcs : List RequiredComponent) (db : List ItemBatch) (allocs : List Alloc)
      (dbf : List ItemBatch), (db.map ItemBatch.id).Nodup →
      allocLoop rcs db = .ok (allocs, dbf) →
      BatchStep db dbf ∧ dbf.map ItemBatch.id = db.map ItemBatch.id := by
  intro rcs
  induction rcs with
  | nil =>
    intro db allocs dbf hnodup h
    unfold allocLoop at h
    injection h with h
    injection h with h1 h2
    subst h2
    exact ⟨batchStep_refl db, rfl⟩
  | cons r rest ih =>
    intro db allocs dbf hnodup h
    unfold allocLoop at h
    by_cases h1 : r.required_base ≤ 0
    · rw [if_pos h1] at h
      exact ih db allocs dbf hnodup h
    · rw [if_neg h1] at h
      by_cases h2 : (r.is_optional &&
          decide (on_hand_qty db r.item_id < r.required_base)) = true
      · rw [if_pos h2] at h
        exact ih db allocs dbf hnodup h
      · rw [if_neg h2] at h
        rcases halloc : fifo_allocate db r.item_id r.required_base with ⟨res, db1⟩
        rw [halloc] at h
        cases res with
        | error s => cases h
        | ok allocs0 =>
          have hids1 : db1.map ItemBatch.id = db.map ItemBatch.id := by
            have hx := fifo_allocate_ids db r.item_id r.required_base
            rw [halloc] at hx
            exact hx
          have hstep1 : BatchStep db db1 := by
            have hx := fifo_allocate_batchStep db r.item_id r.required_base hnodup
            rw [halloc] at hx
            exact hx
          have hnodup1 : (db1.map ItemBatch.id).Nodup := by
            rw [hids1]
            exact hnodup
          simp only at h
          cases hrec : allocLoop rest db1 with
          | error s =>
            rw [hrec] at h
            cases h
          | ok pr =>
            obtain ⟨ra, dbf2⟩ := pr
            rw [hrec] at h
            simp only at h
            injection h with h
            injection h with ha hdb
            subst hdb
            obtain ⟨hstep2, hids2⟩ := ih db1 ra dbf2 hnodup1 hrec
            exact ⟨batchStep_trans hstep1 hstep2, hids2.trans hids1⟩

/-- C7: across the core operations, a batch row is immutable after creation
except for the FIFO `qty_remaining` decrement, which never increases the
quantity and never drives it negative: (a) stock-in (`add_batch`, the writer
used by seeding and refund restock) appends a fresh batch with
`qty_initial = qty_remaining` and the given fixed cost, leaving every existing
row untouched; (b) FIFO allocation takes each pre-existing row to a row with
identical creation-time fields whose `qty_remaining` has not increased and
stays nonnegative; (c) a successful manufacturing execution does the same and
appends only the output batch, itself created with
`qty_initial = qty_remaining`; (d) a successful refund likewise never mutates
an existing batch. -/
theorem batch_rows_immutable_qty_monotone :
    (∀ (w : World) (item_id : Nat) (qty cost : Int) (sk : String)
        (sid : Option String) (now : Nat),
      (add_batch w item_id qty cost sk sid now).1.batches =
        w.batches ++ [⟨w.next_batch_id, item_id, qty, qty, cost, sk, sid, now⟩] ∧
      BatchStep w.batches (add_batch w item_id qty cost sk sid now).1.batches) ∧
    (∀ (db : List ItemBatch) (item_id : Nat) (q : Int),
      (db.map ItemBatch.id).Nodup → BatchStep db (fifo_allocate db item_id q).2) ∧
    (∀ (w : World) (recipe_id : Option Nat) (notes : Option String)
        (output_item_id : Nat) (rcs : List RequiredComponent)
        (output_qty_base : Int) (now : Nat) (res : ExecResult),
      (w.batches.map ItemBatch.id).Nodup →
      execute_run_txn w recipe_id notes output_item_id rcs output_qty_base now =
        .ok res →
      ∃ dbf out, BatchStep w.batches dbf ∧ res.world.batches = dbf ++ [out] ∧
        out.qty_initial = out.qty_remaining) ∧
    (∀ (w : World) (body : RefundIn) (fresh : String) (now : Nat) (sid : String)
        (w1 : World),
      finance_refund w body fresh now = (.ok sid, w1) →
      BatchStep w.batches w1.batches) := by
  refine ⟨?_, ?_, ?_, ?_⟩
  · intro w item_id qty cost sk sid now
    exact ⟨rfl, batchStep_append _ _⟩
  · intro db item_id q hnodup
    exact fifo_allocate_batchStep db item_id q hnodup
  · intro w recipe_id notes output_item_id rcs output_qty_base now res hnodup hok
    unfold execute_run_txn at hok
    cases h1 : allocLoop rcs w.batches with
    | error s => rw [h1] at hok; cases hok
    | ok pr =>
      obtain ⟨allocs, db1⟩ := pr
      simp only [h1] at hok
      obtain ⟨hstep, -⟩ := allocLoop_batchStep rcs w.batches allocs db1 hnodup h1
      cases h2 : costOfAllocs w.items allocs with
      | error e => simp only [h2] at hok; cases hok
      | ok c =>
        simp only [h2] at hok
        cases h3 : w.items.find? (fun i => i.id == output_item_id) with
        | none => simp only [h3] at hok; cases hok
        | some output_item =>
          simp only [h3] at hok
          cases h4 : uom_multiplier
              (if output_item.dimension == "" then "count" else output_item.dimension)
              (_basis_uom_for_item output_item) with
          | none => simp only [h4] at hok; cases hok
          | some out_mult =>
            simp only [h4] at hok
            by_cases hm : out_mult ≤ 0
            · rw [if_pos hm] at hok; cases hok
            · rw [if_neg hm] at hok
              by_cases hq : output_qty_base ≤ 0
              · rw [if_pos hq] at hok; cases hok
              · rw [if_neg hq] at hok
                injection hok with hok
                subst hok
                exact ⟨db1, _, hstep, rfl, rfl⟩
  · intro w body fresh now sid w1 hok
    unfold finance_refund at hok
    by_cases hguard : (body.restock_inventory && (truthy body.related_source_id).isNone
        && body.restock_unit_cost_cents.isNone) = true
    · rw [if_pos hguard] at hok
      cases hok
    · rw [if_neg hguard, withTransaction] at hok
      cases hbody : refundTxnBody body fresh now w with
      | error e =>
        rw [hbody] at hok
        cases hok
      | ok pr =>
        obtain ⟨w2, sid2⟩ := pr
        rw [hbody] at hok
        simp only at hok
        injection hok with hok1 hok2
        injection hok1 with hok1
        subst hok1
        subst hok2
        unfold refundTxnBody at hbody
        cases hfind : w.items.find? (fun it => it.id == body.item_id) with
        | none =>
          rw [hfind] at hbody
          cases hbody
        | some item =>
          simp only [hfind] at hbody
          cases hnorm : normalize_quantity_to_base_int item.dimension body.uom
              body.quantity_decimal with
          | error e =>
            try simp only [hnorm] at hbody
            cases hbody
          | ok qty_base =>
            try simp only [hnorm] at hbody
            by_cases hq : qty_base ≤ 0
            · rw [if_pos hq] at hbody
              cases hbody
            · rw [if_neg hq] at hbody
              try dsimp only at hbody
              cases hri : body.restock_inventory with
              | false =>
                simp only [hri, Bool.false_eq_true, if_false] at hbody
                injection hbody with hbody
                injection hbody with hbw hbs
                rw [← hbw]
                exact batchStep_refl w.batches
              | true =>
                simp only [hri, if_true] at hbody
                cases htr : truthy body.related_source_id with
                | none =>
                  simp only [htr] at hbody
                  injection hbody with hbody
                  injection hbody with hbw hbs
                  rw [← hbw]
                  exact batchStep_append w.batches _
                | some rsid =>
                  simp only [htr] at hbody
                  try dsimp only at hbody
                  by_cases hrows : (refundRelatedRows
                      ({ w with cash_events := w.cash_events ++
                        [⟨"refund", body.category, -(|body.refund_amount_cents|),
                          some body.item_id, some qty_base, none, "refund", some fresh,
                          truthy body.related_source_id, body.notes,
                          body.created_at.getD now⟩] } : World).movements
                      body.item_id rsid).isEmpty = true
                  · simp only [hrows] at hbody
                    cases hbody
                  · have hrowsf := Bool.eq_false_iff.mpr hrows
                    simp only [hrowsf] at hbody
                    by_cases hzq : (((refundRelatedRows
                        ({ w with cash_events := w.cash_events ++
                          [⟨"refund", body.category, -(|body.refund_amount_cents|),
                            some body.item_id, some qty_base, none, "refund", some fresh,
                            truthy body.related_source_id, body.notes,
                            body.created_at.getD now⟩] } : World).movements
                        body.item_id rsid).map
                        (fun m => (|m.qty_change| : Int))).sum == 0) = true
                    · simp only [hzq] at hbody
                      cases hbody
                    · have hzqf := Bool.eq_false_iff.mpr hzq
                      simp only [hzqf, Bool.false_eq_true, if_false] at hbody
                      injection hbody with hbody
                      injection hbody with hbw hbs
                      rw [← hbw]
                      exact batchStep_append w.batches _

/-- Two-batch world for the stock-in and FIFO parts of the C7 witness. -/
def c7World : World :=
  ⟨[⟨1, "Widget", "count", some "ea", 0, 8⟩],
    [⟨1, 1, 4, 4, 10, "purchase", none, 1⟩,
     ⟨2, 1, 4, 4, 20, "purchase", none, 2⟩],
    [], [], [], 3, 1⟩

/-- The §8 manufacturing scenario world, for the execution part of the C7
witness. -/
def c7MfgWorld : World :=
  ⟨[⟨1, "Input", "count", some "ea", 0, 8000⟩, ⟨2, "Output", "count", some "ea", 0, 0⟩],
    [⟨1, 1, 4000, 4000, 10, "purchase", none, 1⟩,
     ⟨2, 1, 4000, 4000, 20, "purchase", none, 2⟩],
    [], [], [], 3, 1⟩

/-- Result of executing the §8 run against `c7MfgWorld`. -/
def c7MfgResult : ExecResult :=
  { world :=
      ⟨[⟨1, "Input", "count", some "ea", 0, 2000⟩, ⟨2, "Output", "count", some "ea", 0, 2000⟩],
        [⟨1, 1, 4000, 0, 10, "purchase", none, 1⟩,
         ⟨2, 1, 4000, 2000, 20, "purchase", none, 2⟩,
         ⟨3, 2, 2000, 2000, 40, "manufacturing", some "1", 5⟩],
        [⟨1, some 1, -4000, 10, "manufacturing", some "1", 5⟩,
         ⟨1, some 2, -2000, 20, "manufacturing", some "1", 5⟩,
         ⟨2, some 3, 2000, 40, "manufacturing", some "1", 5⟩],
        [],
        [⟨1, none, 2, 2000, "completed", none, some 5, some ⟨2000, 80, 40, 3⟩⟩],
        4, 2⟩,
    run_id := 1,
    allocations := [⟨1, 1, 4000, 10⟩, ⟨1, 2, 2000, 20⟩],
    cost_inputs_cents := 80,
    per_output_cents := 40,
    output_batch_id := 3 }

/-- The §8 refund scenario, for the refund part of the C7 witness. -/
def c7RefundWorld : World :=
  ⟨[⟨1, "Widget", "count", some "ea", 0, 0⟩], [],
    [⟨1, some 1, -2000, 10, "sold", some "sale1", 1⟩,
     ⟨1, some 2, -1000, 20, "sold", some "sale1", 1⟩],
    [], [], 5, 1⟩

def c7RefundBody : RefundIn :=
  ⟨1, 100, "1", "ea", true, some "sale1", none, none, none, none⟩

/-- World after the `c7RefundBody` refund against `c7RefundWorld`. -/
def c7RefundAfter : World :=
  ⟨[⟨1, "Widget", "count", some "ea", 0, 1000⟩],
    [⟨5, 1, 1000, 1000, 13, "refund_restock", some "r1", 9⟩],
    [⟨1, some 1, -2000, 10, "sold", some "sale1", 1⟩,
     ⟨1, some 2, -1000, 20, "sold", some "sale1", 1⟩,
     ⟨1, some 5, 1000, 13, "refund_restock", some "r1", 9⟩],
    [⟨"refund", none, -100, some 1, some 1000, none, "refund", some "r1",
      some "sale1", none, 9⟩],
    [], 6, 1⟩

/-- Witness for C7: stock-in appends without touching the two existing
batches; a FIFO allocation of 6 satisfies the batch invariants; the §8
manufacturing run and the §8 refund satisfy them end to end. -/
theorem batch_rows_immutable_qty_monotone_witness :
    ((add_batch c7World 1 5 7 "purchase" none 3).1.batches =
      c7World.batches ++ [⟨3, 1, 5, 5, 7, "purchase", none, 3⟩]) ∧
    BatchStep c7World.batches (fifo_allocate c7World.batches 1 6).2 ∧
    (∃ dbf out, BatchStep c7MfgWorld.batches dbf ∧
      c7MfgResult.world.batches = dbf ++ [out] ∧
      out.qty_initial = out.qty_remaining) ∧
    BatchStep c7RefundWorld.batches c7RefundAfter.batches :=
  ⟨(batch_rows_immutable_qty_monotone.1 c7World 1 5 7 "purchase" none 3).1,
   batch_rows_immutable_qty_monotone.2.1 c7World.batches 1 6 (by decide),
   batch_rows_immutable_qty_monotone.2.2.1 c7MfgWorld none none 2 [⟨1, 6000, false⟩]
     2000 5 c7MfgResult (by decide) (by decide),
   batch_rows_immutable_qty_monotone.2.2.2 c7RefundWorld c7RefundBody "r1" 9 "r1"
     c7RefundAfter (by decide)⟩

end TGC
